import Mathlib

/-!
# TinyMark: shallow embedding and verification

This file embeds the TinyMark markup engine of this repository in Lean 4 and
settles a list of claims about it.  The repository carries two self-contained
engine variants:

* `src/unnamed/part_001` — the engine exposing `window.tinymarkClient`
  (`parseAttributes`, `parseLines`, `registerHideBlock`,
  `getOrCreatePlaceholder`, `renderTinyMarkFragment`, `executeCallAction`,
  `parseFunctionBody`, `createElementFromParsed`, `applyStyles`, `toHTML`).
  It is embedded below in namespace `P1`.
* `src/tinymark.js` — the `TinyMarkEngine` variant (`escapeHTML`,
  `executeAction`, `renderNode`, `processAttributes`).  The parts cited by the
  claims are embedded in namespace `TJ`.

Modelling conventions:

* JavaScript strings are Lean `String`s; all scanning is done on `String.data`
  (`List Char`) with hand-rolled scanners that mirror the regular expressions
  of the source character by character, so that everything is executable and
  kernel-decidable.
* The DOM is modelled only as far as the engine observes it: created elements
  are immutable trees (`Tree` / `ElCore`), while placeholder `<section>`
  nodes — the only nodes the engine mutates after creation — live in a heap
  `StP1.phs` addressed by allocation index.  `document.body` appends are the
  index list `StP1.bodyPhs`.
* `console.warn` calls are counted in `StP1.warnings`; `console.log` calls
  are not observable behaviour and are not modelled.
* Event listeners are recorded as labels on elements (they are wired, not
  fired, during render), and `setTimeout` scheduling is recorded as a
  listener label as well.
-/

/-! ## Generic string and association-list helpers -/

/-- Whitespace test used for the JavaScript regex class `\s` and for
`String.prototype.trim`. -/
def isWsC (c : Char) : Bool := c.isWhitespace

/-- Character class `[a-zA-Z0-9_]`, the JavaScript regex class `\w`. -/
def isWordC (c : Char) : Bool := c.isAlphanum || c = '_'

/-- Character class `[a-zA-Z0-9_-]` used by selector and id patterns. -/
def isSelC (c : Char) : Bool := c.isAlphanum || c = '_' || c = '-'

/-- Character class `[a-zA-Z]`. -/
def isAlphaC (c : Char) : Bool := c.isAlpha

/-- `String.prototype.trim` on a character list. -/
def trimC (cs : List Char) : List Char :=
  ((cs.dropWhile isWsC).reverse.dropWhile isWsC).reverse

/-- `String.prototype.trim`. -/
def trimS (s : String) : String := String.mk (trimC s.data)

/-- `input.split('\n')` — keeps empty segments. -/
def splitNl : List Char → List (List Char)
  | [] => [[]]
  | c :: cs =>
    if c = '\n' then [] :: splitNl cs
    else match splitNl cs with
      | [] => [[c]]
      | l :: ls => (c :: l) :: ls

/-- `lines.join('\n')`. -/
def joinNl : List (List Char) → List Char
  | [] => []
  | [l] => l
  | l :: ls => l ++ '\n' :: joinNl ls

/-- Splitting on whitespace runs, dropping empty words (the effect of
`split(/\s+/)` on a trimmed string, with the empty parts the source skips
anyway already removed). -/
def wordsC : List Char → List (List Char)
  | [] => []
  | c :: cs =>
    if isWsC c then wordsC cs
    else match wordsC cs with
      | [] => [[c]]
      | w :: ws =>
        match cs with
        | [] => [[c]]
        | c' :: _ => if isWsC c' then [c] :: w :: ws else (c :: w) :: ws

/-- `pat.isPrefixOf cs` for character lists. -/
def startsC : List Char → List Char → Bool
  | [], _ => true
  | _, [] => false
  | p :: ps, c :: cs => p = c && startsC ps cs

/-- If `pat` is a prefix of `cs`, return the rest of `cs`. -/
def dropLit : List Char → List Char → Option (List Char)
  | [], cs => some cs
  | _, [] => none
  | p :: ps, c :: cs => if p = c then dropLit ps cs else none

/-- First-match lookup in an ordered association list (JavaScript object
property read; keys are kept unique by `setA`). -/
def lookupA {α : Type} : List (String × α) → String → Option α
  | [], _ => none
  | (k', v) :: rest, k => if k' = k then some v else lookupA rest k

/-- JavaScript object property write: overwrite in place, else append
(insertion order preserved, as for JS object keys). -/
def setA {α : Type} : List (String × α) → String → α → List (String × α)
  | [], k, v => [(k, v)]
  | (k', v') :: rest, k, v =>
    if k' = k then (k, v) :: rest else (k', v') :: setA rest k v

/-- JavaScript truthiness of a possibly-absent string (`undefined`, `null`
and `''` are falsy). -/
def truthy : Option String → Bool
  | none => false
  | some s => s ≠ ""

/-- JavaScript `a || b` on possibly-absent strings. -/
def jsOr (a b : Option String) : Option String := if truthy a then a else b

/-- JavaScript `String(x)` where `x` is a string or `null`/`undefined`
(both print as `"null"` where the source only ever coerces `null`). -/
def jsStrOf : Option String → String
  | some s => s
  | none => "null"

/-- `s.split(sep)` for a single-character separator, keeping empty segments
(JavaScript `String.prototype.split`). -/
def splitOnC (sep : Char) : List Char → List (List Char)
  | [] => [[]]
  | c :: cs =>
    if c = sep then [] :: splitOnC sep cs
    else match splitOnC sep cs with
      | [] => [[c]]
      | l :: ls => (c :: l) :: ls

namespace P1

/-! ## `src/unnamed/part_001` — the `tinymarkClient` engine -/

/-- The fixed selector→tag table `SELECTORS` (part_001 lines 43-74). -/
def SELECTORS : List (String × String) :=
  [("t", "p"), ("T1", "h1"), ("T2", "h2"), ("T3", "h3"), ("T4", "h4"),
   ("T5", "h5"), ("T6", "h6"), ("img", "img"), ("video", "video"),
   ("audio", "audio"), ("btn", "button"), ("button", "button"),
   ("card", "div"), ("row", "div"), ("col", "div"), ("pre", "pre"),
   ("code", "code"), ("ul", "ul"), ("ol", "ol"), ("li", "li"),
   ("input", "input"), ("textarea", "textarea"), ("select", "select"),
   ("divider", "hr"), ("br", "br"), ("body", "body"), ("id", "div"),
   ("hide", "hide"), ("endhide", "endhide"), ("placeholder", "section")]

/-- Result of `parseAttributes` (part_001 lines 165-196): the leading quoted
text, if any, and the ordered attribute map. -/
structure PAOut where
  text : Option String
  attrs : List (String × String)
deriving Repr, DecidableEq

/-- The quote scanner `/"([^"]*)"/g`: all non-overlapping quoted spans as
(start index, end index exclusive, content).  An unmatched trailing quote
yields no further match, exactly as the regex finds none. -/
def scanQ : List Char → Nat → Option (Nat × List Char) → List (Nat × Nat × String)
  | [], _, _ => []
  | c :: rest, i, none =>
    if c = '"' then scanQ rest (i + 1) (some (i, []))
    else scanQ rest (i + 1) none
  | c :: rest, i, some st =>
    if c = '"' then (st.1, i + 1, String.mk st.2.reverse) :: scanQ rest (i + 1) none
    else scanQ rest (i + 1) (some (st.1, c :: st.2))

/-- One attempt of the fallback regex `new RegExp(key + '\\s*:\\s*"([^"]*)"')`
at the current position. -/
def matchKeyQuotedAt (key cs : List Char) : Option String :=
  match dropLit key cs with
  | none => none
  | some r1 =>
    match r1.dropWhile isWsC with
    | ':' :: r3 =>
      match r3.dropWhile isWsC with
      | '"' :: r5 =>
        let cap := r5.takeWhile (fun c => c ≠ '"')
        if cap.length < r5.length then some (String.mk cap) else none
      | _ => none
    | _ => none

/-- Leftmost match of `key\s*:\s*"([^"]*)"` (the quoted-value recovery in
`parseAttributes`, part_001 line 188). -/
def findKeyQuoted (key : List Char) : List Char → Option String
  | [] => none
  | c :: rest =>
    match matchKeyQuotedAt key (c :: rest) with
    | some v => some v
    | none => findKeyQuoted key rest

/-- `parseAttributes(rawText)` (part_001 lines 165-196).  The `.trim()` calls
of the source on `key`/`value` are no-ops here because words produced by
`wordsC` contain no whitespace. -/
def parseAttributes (rawText : String) : PAOut :=
  let cs := rawText.data
  let quotes := scanQ cs 0 none
  let tr : Option String × List Char :=
    match quotes with
    | (s, e, v) :: _ => if s = 0 then (some v, trimC (cs.drop e)) else (none, cs)
    | [] => (none, cs)
  let raw2 := tr.2
  let attrs := (wordsC raw2).foldl (fun acc part =>
    match part.findIdx? (fun c => c = ':') with
    | none => acc
    | some ci =>
      let keyC := part.take ci
      let v0 := part.drop (ci + 1)
      let value :=
        if v0.head? = some '"' ∧ v0.getLast? = some '"' then
          String.mk (v0.drop 1).dropLast
        else
          match findKeyQuoted keyC raw2 with
          | some q => q
          | none => String.mk v0
      setA acc (String.mk keyC) value) []
  ⟨tr.1, attrs⟩

/-- One parsed line pushed by `parseLines` (part_001 lines 198-294).  The
source stores `functionType`/`functionBody` as extra keys of the `attrs`
object; since no other code path enumerates the attribute keys, they are
modelled as separate optional fields. -/
structure Item where
  selector : String
  text : Option String
  attrs : List (String × String)
  functionType : Option String := none
  functionBody : Option String := none
  rawLine : String
deriving Repr, DecidableEq

/-- The selector regex `/^\.([a-zA-Z0-9_-]+)\s*(.*)/` followed by the
source's `.trim()` of the captured rest. -/
def selMatch (cs : List Char) : Option (String × List Char) :=
  match cs with
  | '.' :: rest =>
    let sel := rest.takeWhile isSelC
    if sel = [] then none
    else some (String.mk sel, trimC (rest.drop sel.length))
  | _ => none

/-- One attempt of `/function\s*:\s*(\w+)\s*\(/` at the current position. -/
def funcMatchAt (cs : List Char) : Option String :=
  match dropLit "function".data cs with
  | none => none
  | some r1 =>
    match r1.dropWhile isWsC with
    | ':' :: r2 =>
      let r3 := r2.dropWhile isWsC
      let w := r3.takeWhile isWordC
      if w = [] then none
      else
        match (r3.drop w.length).dropWhile isWsC with
        | '(' :: _ => some (String.mk w)
        | _ => none
    | _ => none

/-- Leftmost match of `/function\s*:\s*(\w+)\s*\(/` (part_001 line 247). -/
def funcSearch : List Char → Option String
  | [] => none
  | c :: rest =>
    match funcMatchAt (c :: rest) with
    | some t => some t
    | none => funcSearch rest

/-- The same-line balanced-parenthesis scan of part_001 lines 251-262:
starting at `rest[startIndex]`, track depth and return the absolute index of
the parenthesis closing the first `(`. -/
def scanDepth : List Char → Nat → Int → Option Nat
  | [], _, _ => none
  | c :: rest, j, depth =>
    let d1 : Int := if c = '(' then depth + 1 else depth
    if c = ')' then
      if d1 - 1 = 0 then some j else scanDepth rest (j + 1) (d1 - 1)
    else scanDepth rest (j + 1) d1

/-- The `.hide` body collector (part_001 lines 222-231): collect original
lines until one whose trim starts with `.endhide`; return the collected block
and the lines after the `.endhide` line (the source's final `i++`). -/
def hideTake : List (List Char) → List (List Char) × List (List Char)
  | [] => ([], [])
  | l :: ls =>
    if startsC ".endhide".data (trimC l) then ([], ls)
    else
      let r := hideTake ls
      (l :: r.1, r.2)

/-- The multi-line function-body collector (part_001 lines 264-278): append
lines to the body until one contains `)` (at its first `)` character), splice
the tail of that line into `rest`, and return the remaining lines (the outer
`i++` consumes the closing line). -/
def fnCollect (startIdx : Nat) (rest0 : List Char) :
    List Char → List (List Char) → List Char × List Char × List (List Char)
  | body0, [] => (body0, rest0, [])
  | body0, l :: ls =>
    match l.findIdx? (fun c => c = ')') with
    | some ci => (body0 ++ '\n' :: l.take ci, rest0.take startIdx ++ l.drop (ci + 1), ls)
    | none => fnCollect startIdx rest0 (body0 ++ '\n' :: l) ls

/-- The main loop of `parseLines` (part_001 lines 198-294), fuelled by the
number of lines: every iteration consumes at least one line, so fuel
`lines.length + 1` never runs out.  Returns the pushed items together with
the `.hide` registrations `(id, bodyText)` performed during the parse, in
order (the body of a registration with a falsy id is discarded by
`registerHideBlock`, see `applyRegs`). -/
def parseLinesGo : Nat → List (List Char) → List Item × List (Option String × String)
  | 0, _ => ([], [])
  | _, [] => ([], [])
  | fuel + 1, l :: ls =>
    let line := trimC l
    if line = [] || startsC "//".data line || startsC "#".data line then
      parseLinesGo fuel ls
    else if line.head? ≠ some '.' then parseLinesGo fuel ls
    else
      match selMatch line with
      | none => parseLinesGo fuel ls
      | some sr =>
        let selector := sr.1
        let rest := sr.2
        if selector = "hide" then
          let pa := parseAttributes (String.mk rest)
          let id := jsOr (lookupA pa.attrs "id") pa.text
          let hb := hideTake ls
          let r := parseLinesGo fuel hb.2
          (r.1, (id, String.mk (joinNl hb.1)) :: r.2)
        else if selector = "endhide" then parseLinesGo fuel ls
        else if selector = "placeholder" then
          let pa := parseAttributes (String.mk rest)
          let id := jsOr (lookupA pa.attrs "id") pa.text
          let item : Item :=
            { selector := selector, text := pa.text,
              attrs := setA pa.attrs "id" (jsStrOf id), rawLine := String.mk line }
          let r := parseLinesGo fuel ls
          (item :: r.1, r.2)
        else
          match funcSearch rest with
          | some funcType =>
            let startIdx := (rest.findIdx? (fun c => c = '(')).getD 0
            match scanDepth (rest.drop startIdx) startIdx 0 with
            | some endIdx =>
              let funcBody := trimC ((rest.drop (startIdx + 1)).take (endIdx - startIdx - 1))
              let rest2 := rest.take startIdx ++ rest.drop (endIdx + 1)
              let pa := parseAttributes (String.mk rest2)
              let item : Item :=
                { selector := selector, text := pa.text, attrs := pa.attrs,
                  functionType := some funcType, functionBody := some (String.mk funcBody),
                  rawLine := String.mk line }
              let r := parseLinesGo fuel ls
              (item :: r.1, r.2)
            | none =>
              let body0 := trimC (rest.drop (startIdx + 1))
              let fc := fnCollect startIdx rest body0 ls
              let pa := parseAttributes (String.mk fc.2.1)
              let item : Item :=
                { selector := selector, text := pa.text, attrs := pa.attrs,
                  functionType := some funcType, functionBody := some (String.mk fc.1),
                  rawLine := String.mk line }
              let r := parseLinesGo fuel fc.2.2
              (item :: r.1, r.2)
          | none =>
            let pa := parseAttributes (String.mk rest)
            let item : Item :=
              { selector := selector, text := pa.text, attrs := pa.attrs,
                rawLine := String.mk line }
            let r := parseLinesGo fuel ls
            (item :: r.1, r.2)

/-- `parseLines(input)` (part_001 lines 198-294). -/
def parseLines (input : String) : List Item × List (Option String × String) :=
  let lines := splitNl input.data
  parseLinesGo (lines.length + 1) lines

/-! ### Rendered nodes and engine state

Elements created by `createElementFromParsed` are never mutated after the
render pass that creates them, with one exception: placeholder `<section>`
nodes, which `executeCallAction` later fills and toggles.  Ordinary elements
are therefore immutable values (`ElCore`/`ElData`; the only child elements
ever appended are `<option>`s of a `.select`, so children are flat), while
placeholder nodes live in the heap `StP1.phs` and appear in trees as
references `Tree.ph`. -/

/-- An ordinary created element: tag, `textContent`, the `value` property,
`setAttribute` calls in order, inline styles in assignment order, CSS
classes, and wired event listeners (recorded, not fired). -/
structure ElCore where
  tag : String
  textC : String := ""
  valueP : String := ""
  attrsOut : List (String × String) := []
  styles : List (String × String) := []
  classes : List String := []
  listeners : List String := []
deriving Repr, DecidableEq

/-- An element together with its (flat) children — only `<option>`s of a
`.select` in this engine. -/
structure ElData extends ElCore where
  children : List ElCore := []
deriving Repr, DecidableEq

/-- A node of a rendered fragment: an ordinary element, or a reference to a
placeholder `<section>` in the heap. -/
inductive Tree where
  | el : ElData → Tree
  | ph : Nat → Tree
deriving Repr, DecidableEq

/-- A placeholder `<section>` node: its `data-tmk-id` attribute, its
`style.display`, and its current content (`innerHTML` is empty iff `content`
is empty; placeholders receive content only via `appendChild(fragment)`). -/
structure PhNode where
  tmkId : String
  display : String := "none"
  content : List Tree := []
deriving Repr, DecidableEq

/-- The engine's process-wide state: the placeholder heap, the indices of
placeholders appended to `document.body`, and the `TinyMark` registries
(`placeholders`, `hiddenBlocks`, `idFunctions`), plus `document.body` styles
and a counter of `console.warn` signals. -/
structure StP1 where
  phs : List PhNode := []
  bodyPhs : List Nat := []
  placeholders : List (String × Nat) := []
  hiddenBlocks : List (String × String) := []
  idFunctions : List (String × String) := []
  bodyStyles : List (String × String) := []
  warnings : Nat := 0
deriving Repr, DecidableEq

/-- Read a placeholder node (indices produced by the engine are always in
range; the default is never reached on reachable states). -/
def phGet (st : StP1) (r : Nat) : PhNode := (st.phs[r]?).getD ⟨"", "none", []⟩

/-- Overwrite a placeholder node in the heap. -/
def phSet (st : StP1) (r : Nat) (n : PhNode) : StP1 :=
  { st with phs := st.phs.set r n }

/-- `registerHideBlock` (part_001 lines 296-300) applied to the ordered
registrations collected by `parseLines`: a falsy id is skipped, later
registrations overwrite earlier ones. -/
def applyRegs (regs : List (Option String × String)) (hb : List (String × String)) :
    List (String × String) :=
  regs.foldl (fun m r =>
    match r.1 with
    | some i => if i = "" then m else setA m i r.2
    | none => m) hb

/-- JavaScript `v || d` for a defaulted attribute read. -/
def orDefault (v : Option String) (d : String) : String :=
  match v with
  | some s => if s = "" then d else s
  | none => d

/-- `BUTTON_STYLES.modern` (part_001 lines 77-88). -/
def modernBtn : List (String × String) :=
  [("background", "linear-gradient(135deg, #667eea 0%, #764ba2 100%)"),
   ("color", "#ffffff"), ("border", "none"), ("padding", "12px 24px"),
   ("borderRadius", "8px"), ("fontWeight", "600"), ("cursor", "pointer"),
   ("transition", "all 0.3s ease"), ("textDecoration", "none"),
   ("display", "inline-block")]

/-- `BUTTON_STYLES.classic` (part_001 lines 89-100). -/
def classicBtn : List (String × String) :=
  [("background", "#ffffff"), ("color", "#333333"),
   ("border", "2px solid #333333"), ("padding", "10px 20px"),
   ("borderRadius", "4px"), ("fontWeight", "500"), ("cursor", "pointer"),
   ("transition", "all 0.2s ease"), ("textDecoration", "none"),
   ("display", "inline-block")]

/-- `BUTTON_STYLES.cartoonic` (part_001 lines 101-113). -/
def cartoonicBtn : List (String × String) :=
  [("background", "#ff6b6b"), ("color", "#ffffff"),
   ("border", "4px solid #000000"), ("padding", "12px 24px"),
   ("borderRadius", "20px"), ("fontWeight", "700"), ("cursor", "pointer"),
   ("transition", "all 0.2s ease"), ("textDecoration", "none"),
   ("display", "inline-block"), ("boxShadow", "4px 4px 0 #000000")]

/-- Add `prop := v` to the style map when the attribute is truthy. -/
def addIfTruthy (attrs : List (String × String)) (key : String)
    (s : List (String × String)) (prop : String) : List (String × String) :=
  match lookupA attrs key with
  | some v => if v = "" then s else setA s prop v
  | none => s

/-- `attrs.animation.replace(/:/g, '-')`. -/
def colonsToDashes (s : String) : String :=
  String.mk (s.data.map (fun c => if c = ':' then '-' else c))

/-- `applyStyles(el, attrs, selector)` (part_001 lines 447-499): the style
map built in source order (to be assigned onto the element's existing inline
styles) and the animation classes added via `classList.add`. -/
def applyStyles (attrs : List (String × String)) (selector : String) :
    List (String × String) × List String :=
  let s : List (String × String) := []
  let s := addIfTruthy attrs "color" s "color"
  let s := addIfTruthy attrs "bg" s "backgroundColor"
  let s :=
    match lookupA attrs "color-bg" with
    | some v =>
      if v = "" then s
      else
        let parts := splitOnC ',' v.data
        let p0 := parts.headD []
        let s := setA s "color" (if p0 = [] then v else String.mk p0)
        let s := setA s "backgroundColor"
          (match parts[1]? with
           | some p1 => if p1 = [] then v else String.mk p1
           | none => v)
        s
    | none => s
  let s := addIfTruthy attrs "size" s "fontSize"
  let s := addIfTruthy attrs "family" s "fontFamily"
  let s := addIfTruthy attrs "align" s "textAlign"
  let s := addIfTruthy attrs "padding" s "padding"
  let s := addIfTruthy attrs "margin" s "margin"
  let s := addIfTruthy attrs "radius" s "borderRadius"
  let s := addIfTruthy attrs "shadow" s "boxShadow"
  let s := addIfTruthy attrs "width" s "width"
  let s := addIfTruthy attrs "height" s "height"
  let s := addIfTruthy attrs "display" s "display"
  let s :=
    if selector = "row" then
      let s := setA s "display" "flex"
      let s := setA s "flexDirection" "row"
      setA s "gap" (orDefault (lookupA attrs "gap") "16px")
    else s
  let s :=
    if selector = "col" then
      let s := setA s "display" "flex"
      let s := setA s "flexDirection" "column"
      let s := setA s "gap" (orDefault (lookupA attrs "gap") "16px")
      setA s "flex" (orDefault (lookupA attrs "flex") "1")
    else s
  let s :=
    if selector = "card" then
      let s := setA s "padding" (orDefault (lookupA attrs "padding") "20px")
      let s := setA s "borderRadius" (orDefault (lookupA attrs "radius") "8px")
      let s := setA s "boxShadow"
        (orDefault (lookupA attrs "shadow") "0 2px 8px rgba(0,0,0,0.1)")
      setA s "backgroundColor" (orDefault (lookupA attrs "bg") "#ffffff")
    else s
  let s :=
    if selector = "divider" then
      let s := setA s "border" "none"
      let s := setA s "borderTop" (orDefault (lookupA attrs "border") "1px solid #e0e0e0")
      setA s "margin" (orDefault (lookupA attrs "margin") "20px 0")
    else s
  let s :=
    if selector = "btn" || selector = "button" then
      let base :=
        match orDefault (lookupA attrs "style") "modern" with
        | "modern" => modernBtn
        | "classic" => classicBtn
        | "cartoonic" => cartoonicBtn
        | _ => modernBtn
      base.foldl (fun acc kv => setA acc kv.1 kv.2) s
    else s
  let cls :=
    match lookupA attrs "animation" with
    | some v => if v = "" then [] else ["tmk-anim-" ++ colonsToDashes v]
    | none => []
  (s, cls)

/-- `tagName === 'img' || tagName === 'video' || tagName === 'audio'`. -/
def mediaTag (t : String) : Bool := t = "img" || t = "video" || t = "audio"

/-- `document.createElement(SELECTORS[selector] || 'div')` (part_001 lines
514-515). -/
def elInit (item : Item) : ElCore :=
  { tag := (lookupA SELECTORS item.selector).getD "div" }

/-- `data-tmk-function-id` on `.id` elements (part_001 lines 516-526; the
`idFunctions` registration of those lines is `regOncall`). -/
def stepIdAttr (item : Item) (e : ElCore) : ElCore :=
  if item.selector = "id" then
    { e with attrsOut := e.attrsOut ++
        [("data-tmk-function-id", jsStrOf (jsOr (lookupA item.attrs "id") item.text))] }
  else e

/-- `el.textContent = text` for non-media tags (part_001 lines 527-532). -/
def stepText (item : Item) (e : ElCore) : ElCore :=
  match item.text with
  | some t => if t ≠ "" ∧ ¬ mediaTag e.tag then { e with textC := t } else e
  | none => e

/-- The `href` handling (part_001 lines 533-542). -/
def stepHref (item : Item) (e : ElCore) : ElCore :=
  match lookupA item.attrs "href" with
  | some h =>
    if h = "" then e
    else if e.tag = "button" then
      { e with styles := setA e.styles "cursor" "pointer",
               listeners := e.listeners ++ ["click:navigate"] }
    else { e with attrsOut := e.attrsOut ++ [("href", h)] }
  | none => e

/-- The `src` attribute (part_001 lines 543-545). -/
def stepSrc (item : Item) (e : ElCore) : ElCore :=
  match lookupA item.attrs "src" with
  | some v => if v = "" then e else { e with attrsOut := e.attrsOut ++ [("src", v)] }
  | none => e

/-- A presence-checked boolean attribute (`controls`/`autoplay`/`loop`,
part_001 lines 546-554; `!== undefined`, so even an empty value counts). -/
def stepPresence (item : Item) (key : String) (e : ElCore) : ElCore :=
  match lookupA item.attrs key with
  | some _ => { e with attrsOut := e.attrsOut ++ [(key, "")] }
  | none => e

/-- `el.className = attrs.class` (part_001 lines 555-557). -/
def stepClass (item : Item) (e : ElCore) : ElCore :=
  match lookupA item.attrs "class" with
  | some v => if v = "" then e else { e with classes := e.classes ++ [v] }
  | none => e

/-- The input/textarea extras (part_001 lines 558-562). -/
def stepInputExtras (item : Item) (e : ElCore) : ElCore :=
  if item.selector = "input" || item.selector = "textarea" then
    let e :=
      match lookupA item.attrs "placeholder" with
      | some v => if v = "" then e
                  else { e with attrsOut := e.attrsOut ++ [("placeholder", v)] }
      | none => e
    let e :=
      match lookupA item.attrs "value" with
      | some v => if v = "" then e else { e with valueP := v }
      | none => e
    match lookupA item.attrs "type" with
    | some v => if v = "" then e else { e with attrsOut := e.attrsOut ++ [("type", v)] }
    | none => e
  else e

/-- The `<option>` children of a `.select` (part_001 lines 563-571) — the
only child elements this engine ever appends, built from the `options`
attribute alone. -/
def kidsOf (item : Item) : List ElCore :=
  if item.selector = "select" then
    match lookupA item.attrs "options" with
    | some ov =>
      if ov = "" then []
      else (splitOnC ',' ov.data).map (fun o =>
        { tag := "option", valueP := trimS (String.mk o), textC := trimS (String.mk o) })
    | none => []
  else []

/-- The `applyStyles` call (part_001 line 572): assign the computed style
map onto the element's styles and add the animation classes. -/
def stepStyles (item : Item) (e : ElCore) : ElCore :=
  let sc := applyStyles item.attrs item.selector
  { e with styles := sc.1.foldl (fun acc kv => setA acc kv.1 kv.2) e.styles,
           classes := e.classes ++ sc.2 }

/-- `function:onclick` wiring (part_001 lines 573-578). -/
def stepFnOnclick (item : Item) (e : ElCore) : ElCore :=
  if item.functionType = some "onclick" ∧ truthy item.functionBody then
    { e with styles := setA e.styles "cursor" "pointer",
             listeners := e.listeners ++ ["click:function"] }
  else e

/-- `function:onload` scheduling (part_001 lines 579-583). -/
def stepFnOnload (item : Item) (e : ElCore) : ElCore :=
  if item.functionType = some "onload" ∧ truthy item.functionBody then
    { e with listeners := e.listeners ++ ["onload:scheduled"] }
  else e

/-- The bare `onclick` attribute with a `js:` payload (part_001 lines
584-601): wired only under `allowJs`, otherwise a `console.warn` (counted in
the second component). -/
def stepOnclickJs (item : Item) (allowJs : Bool) (e : ElCore) : ElCore × Nat :=
  match lookupA item.attrs "onclick" with
  | some oc =>
    if oc = "" then (e, 0)
    else if startsC "js:".data oc.data then
      if allowJs then
        ({ e with styles := setA e.styles "cursor" "pointer",
                  listeners := e.listeners ++ ["click:js"] }, 0)
      else (e, 1)
    else (e, 0)
  | none => (e, 0)

/-- The `data-tmk-selector`/`data-tmk-raw` attributes and the inspector
listener (part_001 lines 602-610). -/
def stepBookkeeping (item : Item) (e : ElCore) : ElCore :=
  { e with
    attrsOut := e.attrsOut ++
      [("data-tmk-selector", item.selector), ("data-tmk-raw", item.rawLine)],
    listeners := e.listeners ++ ["shift-click:inspector"] }

/-- The element construction of `createElementFromParsed` for the ordinary
branch (part_001 lines 514-611), as the source-order composition of the
steps above, with the two state effects of that branch hoisted out
(`regOncall` for the `idFunctions` write of lines 518-524, and the returned
`Nat` counting the blocked-`js:` warning of line 598). -/
def buildElData (item : Item) (allowJs : Bool) : ElData × Nat :=
  let e := stepText item (stepIdAttr item (elInit item))
  let e := stepSrc item (stepHref item e)
  let e := stepPresence item "loop" (stepPresence item "autoplay" (stepPresence item "controls" e))
  let e := stepInputExtras item (stepClass item e)
  let e := stepFnOnload item (stepFnOnclick item (stepStyles item e))
  let ew := stepOnclickJs item allowJs e
  ({ toElCore := stepBookkeeping item ew.1, children := kidsOf item }, ew.2)

/-- The `idFunctions` registration of `createElementFromParsed`
(part_001 lines 516-525). -/
def regOncall (item : Item) : Option (String × String) :=
  if item.selector = "id" then
    if item.functionType = some "oncall" ∧ truthy item.functionBody then
      some (jsStrOf (jsOr (lookupA item.attrs "id") item.text), item.functionBody.getD "")
    else none
  else none

/-- `applyBodyStyles(attrs)` (part_001 lines 624-637). -/
def applyBodyStyles (attrs bs : List (String × String)) : List (String × String) :=
  let bs := addIfTruthy attrs "color" bs "color"
  let bs := addIfTruthy attrs "bg" bs "backgroundColor"
  let bs := addIfTruthy attrs "family" bs "fontFamily"
  addIfTruthy attrs "size" bs "fontSize"

/-- The registry key a `.placeholder` item is stored under
(`TinyMark.placeholders[attrs.id]`, with JavaScript's coercion of a missing
key). -/
def phKeyOf (item : Item) : String := (lookupA item.attrs "id").getD "undefined"

/-- The freshly created placeholder `<section>` for a `.placeholder` item
(part_001 lines 507-511): carries `data-tmk-id`, starts hidden and empty. -/
def mkPhNodeOf (item : Item) : PhNode :=
  { tmkId := phKeyOf item, display := "none", content := [] }

/-- `createElementFromParsed(item, shadowRoot, allowJs)` (part_001 lines
501-612).  The `shadowRoot` argument is only captured inside listener
closures in the source and is therefore not part of the model.  Returns the
created node (`none` for `.body`, which only restyles `document.body`) and
the updated state. -/
def createElementFromParsed (item : Item) (allowJs : Bool) (st : StP1) :
    Option Tree × StP1 :=
  if item.selector = "body" then
    (none, { st with bodyStyles := applyBodyStyles item.attrs st.bodyStyles })
  else if item.selector = "placeholder" then
    -- lines 507-513: create the section, register it in TinyMark.placeholders
    (some (Tree.ph st.phs.length),
     { st with phs := st.phs ++ [mkPhNodeOf item],
               placeholders := setA st.placeholders (phKeyOf item) st.phs.length })
  else
    let ew := buildElData item allowJs
    let st :=
      match regOncall item with
      | some kv => { st with idFunctions := setA st.idFunctions kv.1 kv.2 }
      | none => st
    (some (Tree.el ew.1), { st with warnings := st.warnings + ew.2 })

/-- The render loop of `renderTinyMarkFragment` / `render` / `toHTML`:
create an element per item and collect the non-null ones in order. -/
def renderItems : List Item → Bool → StP1 → List Tree × StP1
  | [], _, st => ([], st)
  | it :: its, allowJs, st =>
    let r1 := createElementFromParsed it allowJs st
    let r2 := renderItems its allowJs r1.2
    (r1.1.toList ++ r2.1, r2.2)

/-- `renderTinyMarkFragment(text, shadowRoot, allowJs)` (part_001 lines
320-328): parse (registering `.hide` blocks as a side effect), then render
every parsed item into a fragment. -/
def renderTinyMarkFragment (text : String) (allowJs : Bool) (st : StP1) :
    List Tree × StP1 :=
  let pr := parseLines text
  let st1 := { st with hiddenBlocks := applyRegs pr.2 st.hiddenBlocks }
  renderItems pr.1 allowJs st1

/-- `getOrCreatePlaceholder(id)` (part_001 lines 302-318).  The
`document.querySelector('[data-tmk-id=...]')` scan can only see nodes of the
outer document, i.e. the placeholders appended to `document.body` (rendered
fragments live in shadow roots); it is modelled as a scan of `bodyPhs`. -/
def getOrCreatePlaceholder (id : String) (st : StP1) : Nat × StP1 :=
  match lookupA st.placeholders id with
  | some r => (r, st)
  | none =>
    match st.bodyPhs.find? (fun r => ((st.phs[r]?).map PhNode.tmkId) = some id) with
    | some r => (r, { st with placeholders := setA st.placeholders id r })
    | none =>
      let r := st.phs.length
      (r, { st with
              phs := st.phs ++ [{ tmkId := id, display := "none", content := [] }],
              bodyPhs := st.bodyPhs ++ [r],
              placeholders := setA st.placeholders id r })

/-- The non-`toggle` branches of `executeCallAction(action, id, shadowRoot,
allowJs)` (part_001 lines 330-361): fetch the placeholder, look up the
hidden body, then show (render the body into the placeholder and unhide it),
hide (clear and hide it), or warn. -/
def executeCallCore (action id : String) (allowJs : Bool) (st : StP1) : StP1 :=
  let p := getOrCreatePlaceholder id st
  let st1 := p.2
  if action = "show" || action = "unhide" || action = "render" then
    match lookupA st1.hiddenBlocks id with
    | none => { st1 with warnings := st1.warnings + 1 }
    | some b =>
      if b = "" then { st1 with warnings := st1.warnings + 1 }
      else
        let rf := renderTinyMarkFragment b allowJs st1
        phSet rf.2 p.1 { phGet rf.2 p.1 with content := rf.1, display := "" }
  else if action = "hide" || action = "disappear" then
    phSet st1 p.1 { phGet st1 p.1 with content := [], display := "none" }
  else { st1 with warnings := st1.warnings + 1 }

/-- `executeCallAction` including the `toggle` branch (part_001 lines
352-359): `toggle` re-enters with `unhide` or `hide` depending only on the
placeholder's current `style.display` and content emptiness.  (The source's
recursive call re-runs the placeholder fetch; after the first fetch the
registry contains the id, so passing `st` after the first fetch is exact.) -/
def executeCallAction (action id : String) (allowJs : Bool) (st : StP1) : StP1 :=
  if action = "toggle" then
    let p := getOrCreatePlaceholder id st
    let n := phGet p.2 p.1
    if n.display = "none" || n.content = [] then executeCallCore "unhide" id allowJs p.2
    else executeCallCore "hide" id allowJs p.2
  else executeCallCore action id allowJs st

/-- `tinymarkClient.unhide(id)` (part_001 lines 897-899). -/
def clientUnhide (id : String) (st : StP1) : StP1 := executeCallAction "unhide" id false st

/-- `tinymarkClient.hide(id)` (part_001 lines 901-903). -/
def clientHide (id : String) (st : StP1) : StP1 := executeCallAction "hide" id false st

/-- `tinymarkClient.toggle(id)` (part_001 lines 905-907). -/
def clientToggle (id : String) (st : StP1) : StP1 := executeCallAction "toggle" id false st

/-- `tinymarkClient.toHTML(tinyText)` (part_001 lines 878-886): parse and
render into a detached `<div>` with no shadow root and `allowJs = false`,
returning its children (the source returns their `innerHTML`
serialization, a pure function of these trees and of the placeholder nodes
they reference). -/
def toHTML (tinyText : String) (st : StP1) : List Tree × StP1 :=
  renderTinyMarkFragment tinyText false st

/-- The branch taken by `parseFunctionBody(body, shadowRoot, allowJs)`
(part_001 lines 375-445). -/
inductive FBAct where
  | callAction (verb id : String)
  | nav (url : String)
  | copyTo (sel : String)
  | modalOn (sel : String)
  | renderSemis (body : String)
  | renderMarkup (body : String)
  | runJs (code : String)
  | warnUnparsed
deriving Repr, DecidableEq

/-- The regex alternation `(hide|unhide|show|toggle)` (the four verbs start
with distinct characters, so first-match order is exact). -/
def verbAlt (cs : List Char) : Option (String × List Char) :=
  match dropLit "hide".data cs with
  | some r => some ("hide", r)
  | none =>
    match dropLit "unhide".data cs with
    | some r => some ("unhide", r)
    | none =>
      match dropLit "show".data cs with
      | some r => some ("show", r)
      | none =>
        match dropLit "toggle".data cs with
        | some r => some ("toggle", r)
        | none => none

/-- One attempt of `/(hide|unhide|show|toggle)\s*\(\s*hide\s*:\s*([^)]+)\)/`
(part_001 line 376) at the current position. -/
def callMatchAt (cs : List Char) : Option (String × String) :=
  match verbAlt cs with
  | none => none
  | some vr =>
    match vr.2.dropWhile isWsC with
    | '(' :: r2 =>
      match dropLit "hide".data (r2.dropWhile isWsC) with
      | none => none
      | some r3 =>
        match r3.dropWhile isWsC with
        | ':' :: r4 =>
          let r5 := r4.dropWhile isWsC
          let cap := r5.takeWhile (fun c => c ≠ ')')
          if cap ≠ [] ∧ (r5.drop cap.length).head? = some ')' then
            some (vr.1, String.mk cap)
          else none
        | _ => none
    | _ => none

/-- Leftmost match of the pattern of `callMatchAt`. -/
def findCallMatch : List Char → Option (String × String)
  | [] => none
  | c :: rest =>
    match callMatchAt (c :: rest) with
    | some v => some v
    | none => findCallMatch rest

/-- One attempt of `/call\s*:\s*(hide|unhide|show|toggle)\s*:\s*([^\s)]+)/`
(part_001 line 383) at the current position. -/
def simpleCallAt (cs : List Char) : Option (String × String) :=
  match dropLit "call".data cs with
  | none => none
  | some r1 =>
    match r1.dropWhile isWsC with
    | ':' :: r2 =>
      match verbAlt (r2.dropWhile isWsC) with
      | none => none
      | some vr =>
        match vr.2.dropWhile isWsC with
        | ':' :: r4 =>
          let r5 := r4.dropWhile isWsC
          let cap := r5.takeWhile (fun c => ¬ isWsC c ∧ c ≠ ')')
          if cap = [] then none else some (vr.1, String.mk cap)
        | _ => none
    | _ => none

/-- Leftmost match of the pattern of `simpleCallAt`. -/
def findSimpleCall : List Char → Option (String × String)
  | [] => none
  | c :: rest =>
    match simpleCallAt (c :: rest) with
    | some v => some v
    | none => findSimpleCall rest

/-- One attempt of `/tmk\s*:\s*WORD\s*=\s*([^\s;]+)/` (part_001 lines
390-406) at the current position. -/
def tmkMatchAt (word cs : List Char) : Option String :=
  match dropLit "tmk".data cs with
  | none => none
  | some r1 =>
    match r1.dropWhile isWsC with
    | ':' :: r2 =>
      match dropLit word (r2.dropWhile isWsC) with
      | none => none
      | some r3 =>
        match r3.dropWhile isWsC with
        | '=' :: r4 =>
          let r5 := r4.dropWhile isWsC
          let cap := r5.takeWhile (fun c => ¬ isWsC c ∧ c ≠ ';')
          if cap = [] then none else some (String.mk cap)
        | _ => none
    | _ => none

/-- Leftmost match of the pattern of `tmkMatchAt`. -/
def findTmk (word : List Char) : List Char → Option String
  | [] => none
  | c :: rest =>
    match tmkMatchAt word (c :: rest) with
    | some v => some v
    | none => findTmk word rest

/-- The branch selection of `parseFunctionBody(body, shadowRoot, allowJs)`
(part_001 lines 375-445), in source order: the call-pattern matches, the
`tmk:` utility verbs, the semicolon-joined markup branch, the multi-line or
selector-led markup branch, the capability-gated `js:` branch, and the final
warning.  The raw-script branch is the only one that executes code, and it
is guarded by `allowJs`. -/
def parseFunctionBodyAct (body : String) (allowJs : Bool) : FBAct :=
  let cs := body.data
  match findCallMatch cs with
  | some vt => .callAction vt.1 (trimS vt.2)
  | none =>
  match findSimpleCall cs with
  | some vt => .callAction vt.1 (trimS vt.2)
  | none =>
  match findTmk "nav".data cs with
  | some u => .nav u
  | none =>
  match findTmk "copy".data cs with
  | some s => .copyTo s
  | none =>
  match findTmk "modal".data cs with
  | some s => .modalOn s
  | none =>
  if cs.contains ';' then .renderSemis body
  else
    let lines := splitNl (trimC cs)
    if lines.length > 1 ∨ startsC ".".data (lines.headD []) then .renderMarkup body
    else if startsC "js:".data cs ∧ allowJs then .runJs (trimS (String.mk (cs.drop 3)))
    else .warnUnparsed

end P1

namespace TJ

/-! ## `src/tinymark.js` — the `TinyMarkEngine` variant -/

/-- `escapeHTML(str)` (tinymark.js lines 128-138): per-character replacement
of the five HTML-special characters by entities. -/
def escC (c : Char) : List Char :=
  if c = '&' then "&amp;".data
  else if c = '<' then "&lt;".data
  else if c = '>' then "&gt;".data
  else if c = '"' then "&quot;".data
  else if c = '\'' then "&#39;".data
  else [c]

/-- `escapeHTML(str)` (tinymark.js lines 128-138). -/
def escapeHTML (s : String) : String :=
  String.mk (s.data.foldr (fun c acc => escC c ++ acc) [])

/-- The observable action selected by `executeAction(actionStr,
contextElement, allowJs)` (tinymark.js lines 344-402). -/
inductive TJAct where
  | noAction
  | tmkNav (url : String)
  | tmkCopy (sel : String)
  | tmkModalWarn
  | tmkSortWarn
  | tmkToggleClass (sel cls : String)
  | tmkUnknownWarn (a : String)
  | runJs (code : String)
  | warnJsBlocked
  | callAction (verb id : String)
  | warnInvalid
deriving Repr, DecidableEq

/-- The regex `/^id"?([a-zA-Z0-9_\-]+)"?/` of the `appear`/`disappear`
branch (tinymark.js line 387). -/
def idMatchTJ (body : List Char) : Option String :=
  match dropLit "id".data body with
  | none => none
  | some r1 =>
    let r2 := match r1 with
      | '"' :: t => t
      | _ => r1
    let cap := r2.takeWhile isSelC
    if cap = [] then none else some (String.mk cap)

/-- The regex `/^([a-zA-Z]+):"?([a-zA-Z0-9_\-]+)"?/` of the `call` branch
(tinymark.js line 395). -/
def callMatchTJ (body : List Char) : Option (String × String) :=
  let verb := body.takeWhile isAlphaC
  if verb = [] then none
  else
    match body.drop verb.length with
    | ':' :: r1 =>
      let r2 := match r1 with
        | '"' :: t => t
        | _ => r1
      let cap := r2.takeWhile isSelC
      if cap = [] then none else some (String.mk verb, String.mk cap)
    | _ => none

/-- `executeAction(actionStr, contextElement, allowJs)` (tinymark.js lines
344-402) as the action it dispatches to.  The `js:` branch, the only one
that executes raw code (`new Function(body)()`), runs exactly when `allowJs`
holds and otherwise logs the blocked-handler warning. -/
def executeAction (actionStr : String) (allowJs : Bool) : TJAct :=
  let cs := actionStr.data
  let pre := cs.takeWhile isAlphaC
  if pre = [] then .noAction
  else
    match cs.drop pre.length with
    | ':' :: bodyC =>
      let prefixL := String.mk (pre.map Char.toLower)
      let body := trimC bodyC
      if prefixL = "tmk" then
        let segs := splitOnC '=' body
        let action := String.mk (segs.headD [])
        let value := String.mk ((segs[1]?).getD [])
        if action = "nav" then .tmkNav value
        else if action = "copy" then .tmkCopy value
        else if action = "modal" then .tmkModalWarn
        else if action = "sort" then .tmkSortWarn
        else if action = "toggleClass" then
          let tp := splitOnC ':' value.data
          .tmkToggleClass (String.mk (tp.headD [])) (String.mk ((tp[1]?).getD []))
        else .tmkUnknownWarn action
      else if prefixL = "js" then
        if allowJs then .runJs (String.mk body) else .warnJsBlocked
      else if prefixL = "appear" ∨ prefixL = "disappear" then
        match idMatchTJ body with
        | some i => .callAction prefixL i
        | none => .warnInvalid
      else if prefixL = "call" then
        match callMatchTJ body with
        | some vi => .callAction vi.1 vi.2
        | none => .warnInvalid
      else .noAction
    | _ => .noAction

/-- The `{styles, special}` split of `processAttributes(attrs)`
(tinymark.js lines 70-111). -/
structure TJProc where
  styles : List (String × String)
  special : List (String × String)
deriving Repr, DecidableEq

/-- `processAttributes(attrs)` (tinymark.js lines 70-111): route each
attribute to an inline style or to the `special` map, in insertion order. -/
def processAttributes (attrs : List (String × String)) : TJProc :=
  attrs.foldl (fun acc kv =>
    let k := kv.1
    let v := kv.2
    if k = "color" then { acc with styles := setA acc.styles "color" v }
    else if k = "bg" ∨ k = "background" then
      { acc with styles := setA acc.styles "backgroundColor" v }
    else if k = "color-bg" then
      let parts := splitOnC ':' v.data
      if parts.length = 2 then
        let s1 := setA acc.styles "color" (String.mk (parts.headD []))
        { acc with styles := setA s1 "backgroundColor" (String.mk ((parts[1]?).getD [])) }
      else { acc with styles := setA acc.styles "backgroundColor" v }
    else if k = "size" then { acc with styles := setA acc.styles "fontSize" v }
    else if k = "family" then { acc with styles := setA acc.styles "fontFamily" v }
    else if k = "align" then { acc with styles := setA acc.styles "textAlign" v }
    else if k = "padding" then { acc with styles := setA acc.styles "padding" v }
    else if k = "margin" then { acc with styles := setA acc.styles "margin" v }
    else if k = "radius" then { acc with styles := setA acc.styles "borderRadius" v }
    else if k = "shadow" then { acc with styles := setA acc.styles "boxShadow" v }
    else if k = "width" then { acc with styles := setA acc.styles "width" v }
    else if k = "height" then { acc with styles := setA acc.styles "height" v }
    else if k = "display" then { acc with styles := setA acc.styles "display" v }
    else { acc with special := setA acc.special k v }) ⟨[], []⟩

/-- An element created by `renderNode`: tag, the `innerHTML` string assigned
(always `escapeHTML` of the inline text), property and attribute writes,
styles, classes, `<option>` children of a `.select`, and cursor/listeners. -/
structure TJElem where
  tag : String
  innerHTML : String := ""
  valueP : String := ""
  muted : Bool := false
  propsOut : List (String × String) := []
  attrsOut : List (String × String) := []
  styles : List (String × String) := []
  classes : List String := []
  children : List (String × String) := []
deriving Repr, DecidableEq

/-- The outcome of `renderNode(parsed, contextElement)` (tinymark.js lines
204-303): a created element, `null` (the body/hide/endhide/function cases
and — after a `console.warn` — unknown selectors), or a thrown `TypeError`
(the `id` special-attribute case writes to the undefined
`TinyMarkEngine.placeholders`, and `wireFunction` dereferences a `null`
`contextElement`). -/
inductive TJRes where
  | elem (e : TJElem)
  | skipped
  | crashed
deriving Repr, DecidableEq

/-- The selector switch of `renderNode` (tinymark.js lines 211-248). -/
inductive TJTagR where
  | tagOf (t : String)
  | bodyCase
  | skipCase
  | unknownCase
deriving Repr, DecidableEq

/-- The selector switch of `renderNode` (tinymark.js lines 211-248).  Note
`btn`/`button` map to `<a>` in this variant. -/
def tagFor (selector : String) : TJTagR :=
  if selector = "t" then .tagOf "p"
  else if selector = "T1" then .tagOf "h1"
  else if selector = "T2" then .tagOf "h2"
  else if selector = "T3" then .tagOf "h3"
  else if selector = "T4" then .tagOf "h4"
  else if selector = "T5" then .tagOf "h5"
  else if selector = "T6" then .tagOf "h6"
  else if selector = "img" then .tagOf "img"
  else if selector = "video" then .tagOf "video"
  else if selector = "audio" then .tagOf "audio"
  else if selector = "btn" ∨ selector = "button" then .tagOf "a"
  else if selector = "card" then .tagOf "div"
  else if selector = "row" then .tagOf "div"
  else if selector = "col" then .tagOf "div"
  else if selector = "pre" then .tagOf "pre"
  else if selector = "code" then .tagOf "code"
  else if selector = "ul" then .tagOf "ul"
  else if selector = "ol" then .tagOf "ol"
  else if selector = "li" then .tagOf "li"
  else if selector = "input" then .tagOf "input"
  else if selector = "textarea" then .tagOf "textarea"
  else if selector = "select" then .tagOf "select"
  else if selector = "divider" then .tagOf "hr"
  else if selector = "br" then .tagOf "br"
  else if selector = "id" then .tagOf "div"
  else if selector = "body" then .bodyCase
  else if selector = "hide" ∨ selector = "endhide" ∨ selector = "function" then .skipCase
  else .unknownCase

/-- `populateSelect(el, optionsStr)` (tinymark.js lines 540-549) as the list
of `<option>` (value, label) pairs. -/
def populateSelect (optionsStr : String) : List (String × String) :=
  (splitOnC ',' optionsStr.data).map (fun pair =>
    let halves := splitOnC ':' pair
    let v := trimS (String.mk (halves.headD []))
    let t := match halves[1]? with
      | some h => trimS (String.mk h)
      | none => ""
    (v, if t = "" then v else t))

/-- `applyAnimation(el, preset)` (tinymark.js lines 494-504): classes added
and warning count. -/
def applyAnimation (preset : String) : List String × Nat :=
  let parts := splitOnC ':' preset.data
  let base := String.mk (parts.headD [])
  let dir := (parts[1]?).map String.mk
  if base = "hover" then (["tmk-animated", "tmk-hover-pop"], 0)
  else if base = "fade" then (["tmk-animated", "tmk-fade-anim"], 0)
  else if base = "pop" then (["tmk-animated", "tmk-pop-anim"], 0)
  else if base = "slide" then
    (["tmk-animated", "tmk-slide-" ++ (match dir with
      | some d => if d = "" then "up" else d
      | none => "up")], 0)
  else (["tmk-animated"], 1)

/-- `applyButtonStyle(el, style)` (tinymark.js lines 511-519). -/
def applyButtonStyle (style : String) : List String :=
  let l := String.mk (style.data.map Char.toLower)
  if l = "modern" then ["tmk-button", "tmk-btn-modern"]
  else if l = "classic" then ["tmk-button", "tmk-btn-classic"]
  else if l = "cartoonic" then ["tmk-button", "tmk-btn-cartoonic"]
  else ["tmk-button"]

/-- One step of the special-attribute loop of `renderNode` (tinymark.js
lines 265-294).  `selector` decides the `id` case, `tag` the `options` and
`type` cases; `ctxPresent` is whether `contextElement` is non-null (its
`getAttribute` inside `wireFunction` throws otherwise).  Returns the updated
element, the warning increment, and whether a `TypeError` was thrown. -/
def specialStep (selector tag : String) (ctxPresent : Bool) (e : TJElem)
    (kv : String × String) : TJElem × Nat × Bool :=
  let k := kv.1
  let v := kv.2
  if k = "href" then ({ e with propsOut := setA e.propsOut "href" v }, 0, false)
  else if k = "src" then ({ e with propsOut := setA e.propsOut "src" v }, 0, false)
  else if k = "controls" then
    (if v ≠ "false" then { e with propsOut := setA e.propsOut "controls" "true" } else e, 0, false)
  else if k = "autoplay" then
    ({ (if v ≠ "false" then { e with propsOut := setA e.propsOut "autoplay" "true" } else e)
        with muted := true }, 0, false)
  else if k = "loop" then
    (if v ≠ "false" then { e with propsOut := setA e.propsOut "loop" "true" } else e, 0, false)
  else if k = "options" then
    (if tag = "select" ∧ v ≠ "" then { e with children := e.children ++ populateSelect v }
     else e, 0, false)
  else if k = "class" then ({ e with classes := e.classes ++ [v] }, 0, false)
  else if k = "id" then
    -- `el.id = val`, then for selector 'id' the write to the undefined
    -- `TinyMarkEngine.placeholders` throws a TypeError
    if selector = "id" then
      ({ e with propsOut := setA e.propsOut "id" v,
                attrsOut := setA e.attrsOut "data-tmk-id" v }, 0, true)
    else ({ e with propsOut := setA e.propsOut "id" v }, 0, false)
  else if k = "onclick" ∨ k = "onload" then
    -- wireFunction(el, key.replace('on',''), val, contextElement): the
    -- replaced type 'click'/'load' matches no branch of wireFunction, so
    -- only the cursor hint is applied — after reading allow-js from
    -- contextElement, which throws when it is null
    if ctxPresent then
      ({ e with styles := setA e.styles "cursor" "pointer" }, 0, false)
    else (e, 0, true)
  else if k = "animation" then
    let aw := applyAnimation v
    ({ e with classes := e.classes ++ aw.1 }, aw.2, false)
  else if k = "style" then ({ e with classes := e.classes ++ applyButtonStyle v }, 0, false)
  else if k = "type" then
    (if tag = "input" then { e with propsOut := setA e.propsOut "type" v } else e, 0, false)
  else ({ e with attrsOut := setA e.attrsOut k v }, 0, false)

/-- The special-attribute loop of `renderNode`; a thrown step aborts the
rest of the loop. -/
def specialFold (selector tag : String) (ctxPresent : Bool) :
    TJElem → List (String × String) → TJElem × Nat × Bool
  | e, [] => (e, 0, false)
  | e, kv :: rest =>
    match specialStep selector tag ctxPresent e kv with
    | (e1, w1, true) => (e1, w1, true)
    | (e1, w1, false) =>
      match specialFold selector tag ctxPresent e1 rest with
      | (e2, w2, thrown) => (e2, w1 + w2, thrown)

/-- The content phase of `renderNode` (tinymark.js lines 254-262):
self-closing tags get no content, input/textarea get `el.value`, every other
tag gets `el.innerHTML = escapeHTML(text || '')` (the `code` arm of the
source assigns the same expression as the default arm). -/
def contentFor (tagName text : String) (e : TJElem) : TJElem :=
  if tagName = "img" ∨ tagName = "br" ∨ tagName = "hr" then e
  else if tagName = "input" ∨ tagName = "textarea" then
    if text ≠ "" then { e with valueP := text } else e
  else { e with innerHTML := escapeHTML text }

/-- The layout/semantic class phase of `renderNode` (tinymark.js lines
297-300). -/
def layoutClasses (selector : String) (e : TJElem) : TJElem :=
  let e := if selector = "row" then { e with classes := e.classes ++ ["tmk-row"] } else e
  let e := if selector = "col" then { e with classes := e.classes ++ ["tmk-col"] } else e
  let e := if selector = "card" then { e with classes := e.classes ++ ["tmk-card"] } else e
  if selector = "btn" ∨ selector = "button" then
    { e with attrsOut := setA e.attrsOut "role" "button" }
  else e

/-- `renderNode(parsed, contextElement)` (tinymark.js lines 204-303):
returns the outcome and the number of `console.warn` signals.  Inputs are
the parsed `selector`, inline `text` and attribute map, plus whether
`contextElement` is non-null. -/
def renderNode (selector text : String) (attrs : List (String × String))
    (ctxPresent : Bool) : TJRes × Nat :=
  let pr := processAttributes attrs
  match tagFor selector with
  | .bodyCase => (.skipped, 0)
  | .skipCase => (.skipped, 0)
  | .unknownCase => (.skipped, 1)
  | .tagOf tagName =>
    let e := contentFor tagName text { tag := tagName, styles := pr.styles }
    -- lines 265-294: special attributes
    match specialFold selector tagName ctxPresent e pr.special with
    | (_, w, true) => (.crashed, w)
    | (e1, w, false) => (.elem (layoutClasses selector e1), w)

end TJ

namespace P1

/-! ### Pure characterizations used in the theorem statements -/

/-- Number of placeholder sections allocated by one item. -/
def phCount (it : Item) : Nat := if it.selector = "placeholder" then 1 else 0

/-- The node `createElementFromParsed` returns for an item, as a pure
function of the item and of the placeholder-heap size at creation time. -/
def treeOfPure (it : Item) (allowJs : Bool) (k : Nat) : Option Tree :=
  if it.selector = "body" then none
  else if it.selector = "placeholder" then some (Tree.ph k)
  else some (Tree.el (buildElData it allowJs).1)

/-- The fragment `renderItems` produces, as a pure function of the items and
the heap size at the start of the render. -/
def treesOfPure : List Item → Bool → Nat → List Tree
  | [], _, _ => []
  | it :: its, aj, k => (treeOfPure it aj k).toList ++ treesOfPure its aj (k + phCount it)

/-- The placeholder nodes a render pass appends to the heap. -/
def phsDelta : List Item → List PhNode
  | [] => []
  | it :: its => (if it.selector = "placeholder" then [mkPhNodeOf it] else []) ++ phsDelta its

/-- Number of nodes a fragment contains (`createElementFromParsed` returns
`null` exactly for `.body` items). -/
def renderLen (its : List Item) : Nat :=
  (its.filter (fun it => it.selector ≠ "body")).length

/-- Visibility of the placeholder currently bound to `id`: bound, not
`display:none`, and non-empty — exactly the state `toggle` inspects. -/
def shown (st : StP1) (id : String) : Bool :=
  match lookupA st.placeholders id with
  | none => false
  | some r => !((phGet st r).display == "none" || (phGet st r).content.isEmpty)

/-- Registry indices all point into the heap (an invariant of every
reachable state). -/
def PhWF (st : StP1) : Prop := ∀ p ∈ st.placeholders, p.2 < st.phs.length

end P1

namespace P1

/-! ### Projections and concrete scenario states used in theorem statements -/

/-- Tag of a rendered node (placeholder references are `<section>`s). -/
def treeTag : Tree → String
  | .el d => d.tag
  | .ph _ => "section"

/-- `textContent` of a rendered node. -/
def treeText : Tree → String
  | .el d => d.textC
  | .ph _ => ""

/-- Child elements of a rendered node. -/
def treeKids : Tree → List ElCore
  | .el d => d.children
  | .ph _ => []

/-- The `display` inline style of a rendered element. -/
def treeDisplay (t : Tree) : Option String :=
  match t with
  | .el d => lookupA d.styles "display"
  | .ph _ => some "none"

/-- The `flexDirection` inline style of a rendered element. -/
def treeFlexDir (t : Tree) : Option String :=
  match t with
  | .el d => lookupA d.styles "flexDirection"
  | .ph _ => none

/-- The C2 scenario state: render a document declaring hidden block `x` with
body `.t "a"` and a placeholder, show `x`, then render a source that
re-declares `.hide id:x` with an **empty** body (reachable: registrations are
last-wins).  In this state `x` has a registered hidden-block body, namely
`""`. -/
def c2State : StP1 :=
  (renderTinyMarkFragment ".hide id:x\n.endhide" false
    (executeCallAction "show" "x" false
      (renderTinyMarkFragment ".hide id:x\n.t \"a\"\n.endhide\n.placeholder id:x" false
        {}).2)).2

/-- The C9 scenario state: a hidden block for `x` whose body itself declares
`.placeholder id:x` (reachable from an empty state by one render). -/
def c9State : StP1 :=
  (renderTinyMarkFragment ".hide id:x\n.placeholder id:x\n.endhide" false {}).2

end P1

namespace P1

/-- A freshly created placeholder node: hidden and empty. -/
def phFresh (n : PhNode) : Bool := n.display == "none" && n.content.isEmpty

/-- The `textContent` a parsed item receives (part_001 lines 527-532): the
inline quoted text verbatim when truthy and the tag is not a media tag,
otherwise empty. -/
def textContentOf (item : Item) : String :=
  match item.text with
  | some t =>
    if t ≠ "" ∧ ¬ mediaTag ((lookupA SELECTORS item.selector).getD "div") then t else ""
  | none => ""

end P1

/-! ## Lemmas -/

theorem lookupA_setA_self {α : Type} (m : List (String × α)) (k : String) (v : α) :
    lookupA (setA m k v) k = some v := by
  induction m with
  | nil => simp [setA, lookupA]
  | cons p rest ih =>
    obtain ⟨k', v'⟩ := p
    by_cases h : k' = k
    · simp [setA, h, lookupA]
    · simp [setA, h, lookupA, ih]

theorem lookupA_setA_ne {α : Type} (m : List (String × α)) (k k' : String) (v : α)
    (h : k ≠ k') : lookupA (setA m k v) k' = lookupA m k' := by
  induction m with
  | nil => simp [setA, lookupA, h]
  | cons p rest ih =>
    obtain ⟨k'', v''⟩ := p
    by_cases hk : k'' = k
    · simp [setA, hk, lookupA, h]
    · simp [setA, hk, lookupA, ih]

theorem lookupA_setA_isSome {α : Type} (m : List (String × α)) (k k' : String) (v : α)
    (h : (lookupA m k').isSome) : (lookupA (setA m k v) k').isSome := by
  by_cases hk : k = k'
  · subst hk; simp [lookupA_setA_self]
  · rw [lookupA_setA_ne m k k' v hk]; exact h

theorem lookupA_mem {α : Type} (m : List (String × α)) (k : String) (v : α)
    (h : lookupA m k = some v) : (k, v) ∈ m := by
  induction m with
  | nil => simp [lookupA] at h
  | cons p rest ih =>
    obtain ⟨k', v'⟩ := p
    by_cases hk : k' = k
    · simp [lookupA, hk] at h
      simp [hk, h]
    · simp [lookupA, hk] at h
      exact List.mem_cons_of_mem _ (ih h)

namespace P1

theorem phGet_phSet_self (st : StP1) (r : Nat) (n : PhNode) (h : r < st.phs.length) :
    phGet (phSet st r n) r = n := by
  simp [phGet, phSet, List.getElem?_set_eq_of_lt _ h]

theorem phSet_placeholders (st : StP1) (r : Nat) (n : PhNode) :
    (phSet st r n).placeholders = st.placeholders := rfl

theorem phSet_hiddenBlocks (st : StP1) (r : Nat) (n : PhNode) :
    (phSet st r n).hiddenBlocks = st.hiddenBlocks := rfl

theorem phSet_phs_length (st : StP1) (r : Nat) (n : PhNode) :
    (phSet st r n).phs.length = st.phs.length := by
  simp [phSet]

end P1
namespace P1

theorem createEl_fst (it : Item) (aj : Bool) (st : StP1) :
    (createElementFromParsed it aj st).1 = treeOfPure it aj st.phs.length := by
  unfold createElementFromParsed treeOfPure
  by_cases h1 : it.selector = "body"
  · simp [h1]
  · by_cases h2 : it.selector = "placeholder"
    · simp [h1, h2]
    · cases hr : regOncall it <;> simp [h1, h2, hr]

theorem createEl_phs (it : Item) (aj : Bool) (st : StP1) :
    (createElementFromParsed it aj st).2.phs =
      st.phs ++ (if it.selector = "placeholder" then [mkPhNodeOf it] else []) := by
  unfold createElementFromParsed
  by_cases h1 : it.selector = "body"
  · simp [h1]
  · by_cases h2 : it.selector = "placeholder"
    · simp [h1, h2]
    · cases hr : regOncall it <;> simp [h1, h2, hr]

theorem createEl_hiddenBlocks (it : Item) (aj : Bool) (st : StP1) :
    (createElementFromParsed it aj st).2.hiddenBlocks = st.hiddenBlocks := by
  unfold createElementFromParsed
  by_cases h1 : it.selector = "body"
  · simp [h1]
  · by_cases h2 : it.selector = "placeholder"
    · simp [h1, h2]
    · cases hr : regOncall it <;> simp [h1, h2, hr]

theorem createEl_bodyPhs (it : Item) (aj : Bool) (st : StP1) :
    (createElementFromParsed it aj st).2.bodyPhs = st.bodyPhs := by
  unfold createElementFromParsed
  by_cases h1 : it.selector = "body"
  · simp [h1]
  · by_cases h2 : it.selector = "placeholder"
    · simp [h1, h2]
    · cases hr : regOncall it <;> simp [h1, h2, hr]

theorem createEl_ph_lookup (it : Item) (aj : Bool) (st : StP1) (id : String)
    (h : it.selector = "placeholder" → phKeyOf it ≠ id) :
    lookupA (createElementFromParsed it aj st).2.placeholders id =
      lookupA st.placeholders id := by
  unfold createElementFromParsed
  by_cases h1 : it.selector = "body"
  · simp [h1]
  · by_cases h2 : it.selector = "placeholder"
    · simp only [h1, h2, if_false, if_true]
      exact lookupA_setA_ne _ _ _ _ (h h2)
    · cases hr : regOncall it <;> simp [h1, h2, hr]

theorem createEl_ph_isSome (it : Item) (aj : Bool) (st : StP1) (id : String)
    (h : (lookupA st.placeholders id).isSome) :
    (lookupA (createElementFromParsed it aj st).2.placeholders id).isSome := by
  unfold createElementFromParsed
  by_cases h1 : it.selector = "body"
  · simpa [h1] using h
  · by_cases h2 : it.selector = "placeholder"
    · simp only [h1, h2, if_false, if_true]
      exact lookupA_setA_isSome _ _ _ _ h
    · cases hr : regOncall it <;> simpa [h1, h2, hr] using h

theorem renderItems_spec (its : List Item) (aj : Bool) (st : StP1) :
    (renderItems its aj st).1 = treesOfPure its aj st.phs.length
    ∧ (renderItems its aj st).2.phs = st.phs ++ phsDelta its := by
  induction its generalizing st with
  | nil => simp [renderItems, treesOfPure, phsDelta]
  | cons it its ih =>
    have h1 := createEl_fst it aj st
    have h2 := createEl_phs it aj st
    have hlen : (createElementFromParsed it aj st).2.phs.length
        = st.phs.length + phCount it := by
      rw [h2, List.length_append, phCount]
      split <;> simp
    have ih' := ih (createElementFromParsed it aj st).2
    constructor
    · show ((createElementFromParsed it aj st).1.toList ++
        (renderItems its aj (createElementFromParsed it aj st).2).1) = _
      rw [h1, ih'.1, hlen]
      rfl
    · show (renderItems its aj (createElementFromParsed it aj st).2).2.phs = _
      rw [ih'.2, h2, phsDelta]
      split <;> simp [phCount]

theorem renderItems_hiddenBlocks (its : List Item) (aj : Bool) (st : StP1) :
    (renderItems its aj st).2.hiddenBlocks = st.hiddenBlocks := by
  induction its generalizing st with
  | nil => rfl
  | cons it its ih =>
    show (renderItems its aj (createElementFromParsed it aj st).2).2.hiddenBlocks = _
    rw [ih, createEl_hiddenBlocks]

theorem renderItems_bodyPhs (its : List Item) (aj : Bool) (st : StP1) :
    (renderItems its aj st).2.bodyPhs = st.bodyPhs := by
  induction its generalizing st with
  | nil => rfl
  | cons it its ih =>
    show (renderItems its aj (createElementFromParsed it aj st).2).2.bodyPhs = _
    rw [ih, createEl_bodyPhs]

theorem renderItems_ph_lookup (its : List Item) (aj : Bool) (st : StP1) (id : String)
    (h : ∀ it ∈ its, it.selector = "placeholder" → phKeyOf it ≠ id) :
    lookupA (renderItems its aj st).2.placeholders id = lookupA st.placeholders id := by
  induction its generalizing st with
  | nil => rfl
  | cons it its ih =>
    show lookupA (renderItems its aj (createElementFromParsed it aj st).2).2.placeholders id = _
    rw [ih _ (fun x hx => h x (List.mem_cons_of_mem _ hx)),
      createEl_ph_lookup it aj st id (h it (List.mem_cons_self _ _))]

theorem renderItems_ph_isSome (its : List Item) (aj : Bool) (st : StP1) (id : String)
    (h : (lookupA st.placeholders id).isSome) :
    (lookupA (renderItems its aj st).2.placeholders id).isSome := by
  induction its generalizing st with
  | nil => exact h
  | cons it its ih =>
    exact ih _ (createEl_ph_isSome it aj st id h)

theorem applyRegs_lookup_ne (regs : List (Option String × String))
    (hb : List (String × String)) (id : String)
    (h : ∀ p ∈ regs, p.1 ≠ some id) :
    lookupA (applyRegs regs hb) id = lookupA hb id := by
  induction regs generalizing hb with
  | nil => rfl
  | cons p regs ih =>
    obtain ⟨i?, b⟩ := p
    show lookupA (applyRegs regs _) id = _
    cases i? with
    | none => exact ih _ (fun x hx => h x (List.mem_cons_of_mem _ hx))
    | some i =>
      have hne : i ≠ id := by
        intro hc
        exact (h _ (List.mem_cons_self _ _)) (by simp [hc])
      by_cases hi : i = ""
      · simp only [hi, if_pos rfl]
        exact ih _ (fun x hx => h x (List.mem_cons_of_mem _ hx))
      · rw [ih _ (fun x hx => h x (List.mem_cons_of_mem _ hx))]
        show lookupA (if i = "" then hb else setA hb i b) id = lookupA hb id
        rw [if_neg hi]
        exact lookupA_setA_ne _ _ _ _ hne

theorem treesOfPure_length (its : List Item) (aj : Bool) (k : Nat) :
    (treesOfPure its aj k).length = renderLen its := by
  induction its generalizing k with
  | nil => rfl
  | cons it its ih =>
    show ((treeOfPure it aj k).toList ++ treesOfPure its aj (k + phCount it)).length = _
    rw [List.length_append, ih]
    unfold treeOfPure renderLen
    by_cases h1 : it.selector = "body"
    · simp [h1, renderLen]
    · by_cases h2 : it.selector = "placeholder" <;> simp [h1, h2, renderLen, Nat.add_comm]

theorem rf_trees (b : String) (aj : Bool) (st : StP1) :
    (renderTinyMarkFragment b aj st).1 = treesOfPure (parseLines b).1 aj st.phs.length :=
  (renderItems_spec _ _ _).1

theorem rf_phs (b : String) (aj : Bool) (st : StP1) :
    (renderTinyMarkFragment b aj st).2.phs = st.phs ++ phsDelta (parseLines b).1 :=
  (renderItems_spec _ _ _).2

theorem rf_hiddenBlocks (b : String) (aj : Bool) (st : StP1) :
    (renderTinyMarkFragment b aj st).2.hiddenBlocks =
      applyRegs (parseLines b).2 st.hiddenBlocks :=
  renderItems_hiddenBlocks _ _ _

theorem rf_bodyPhs (b : String) (aj : Bool) (st : StP1) :
    (renderTinyMarkFragment b aj st).2.bodyPhs = st.bodyPhs :=
  renderItems_bodyPhs _ _ _

theorem rf_ph_lookup (b : String) (aj : Bool) (st : StP1) (id : String)
    (h : ∀ it ∈ (parseLines b).1, it.selector = "placeholder" → phKeyOf it ≠ id) :
    lookupA (renderTinyMarkFragment b aj st).2.placeholders id =
      lookupA st.placeholders id :=
  renderItems_ph_lookup _ _ _ _ h

theorem rf_ph_isSome (b : String) (aj : Bool) (st : StP1) (id : String)
    (h : (lookupA st.placeholders id).isSome) :
    (lookupA (renderTinyMarkFragment b aj st).2.placeholders id).isSome :=
  renderItems_ph_isSome _ _ _ _ h

end P1
namespace P1

theorem gcp_cached (id : String) (st : StP1) (r : Nat)
    (h : lookupA st.placeholders id = some r) :
    getOrCreatePlaceholder id st = (r, st) := by
  unfold getOrCreatePlaceholder
  rw [h]

theorem gcp_basic (id : String) (st : StP1) :
    lookupA (getOrCreatePlaceholder id st).2.placeholders id
        = some (getOrCreatePlaceholder id st).1
    ∧ (getOrCreatePlaceholder id st).2.hiddenBlocks = st.hiddenBlocks
    ∧ (getOrCreatePlaceholder id st).2.warnings = st.warnings
    ∧ (getOrCreatePlaceholder id st).2.idFunctions = st.idFunctions
    ∧ ∃ Δ, (getOrCreatePlaceholder id st).2.phs = st.phs ++ Δ
        ∧ ∀ n ∈ Δ, n.display = "none" ∧ n.content = [] := by
  unfold getOrCreatePlaceholder
  cases hl : lookupA st.placeholders id with
  | some r => exact ⟨hl, rfl, rfl, rfl, [], by simp, by simp⟩
  | none =>
    cases hf : st.bodyPhs.find? (fun r => ((st.phs[r]?).map PhNode.tmkId) = some id) with
    | some r =>
      refine ⟨lookupA_setA_self _ _ _, rfl, rfl, rfl, [], by simp, by simp⟩
    | none =>
      refine ⟨lookupA_setA_self _ _ _, rfl, rfl, rfl,
        [{ tmkId := id, display := "none", content := [] }], rfl, by simp⟩

theorem gcp_bound (id : String) (st : StP1)
    (h : PhWF st ∨ ∃ r, lookupA st.placeholders id = some r ∧ r < st.phs.length) :
    (getOrCreatePlaceholder id st).1 < (getOrCreatePlaceholder id st).2.phs.length := by
  unfold getOrCreatePlaceholder
  cases hl : lookupA st.placeholders id with
  | some r =>
    simp only
    rcases h with hwf | ⟨r', hr', hlt⟩
    · exact hwf (id, r) (lookupA_mem _ _ _ hl)
    · rw [hl] at hr'
      cases hr'
      exact hlt
  | none =>
    cases hf : st.bodyPhs.find? (fun r => ((st.phs[r]?).map PhNode.tmkId) = some id) with
    | some r =>
      have hp := List.find?_some hf
      simp only [decide_eq_true_eq, Option.map_eq_some'] at hp
      obtain ⟨n, hn, -⟩ := hp
      simp only
      exact (List.getElem?_eq_some.mp hn).1
    | none => simp

theorem shown_some (st : StP1) (id : String) (r : Nat)
    (h : lookupA st.placeholders id = some r) :
    shown st id = !((phGet st r).display == "none" || (phGet st r).content.isEmpty) := by
  unfold shown
  rw [h]

theorem ca_dispatch (action id : String) (aj : Bool) (st : StP1) (h : action ≠ "toggle") :
    executeCallAction action id aj st = executeCallCore action id aj st := by
  unfold executeCallAction
  rw [if_neg h]

theorem toggle_eq (id : String) (aj : Bool) (st : StP1) (r : Nat)
    (hr : lookupA st.placeholders id = some r) :
    executeCallAction "toggle" id aj st =
      if (phGet st r).display = "none" || (phGet st r).content = []
      then executeCallCore "unhide" id aj st
      else executeCallCore "hide" id aj st := by
  unfold executeCallAction
  rw [if_pos rfl, gcp_cached id st r hr]

theorem core_hide_eq (id : String) (aj : Bool) (st : StP1) (r : Nat)
    (hr : lookupA st.placeholders id = some r) :
    executeCallCore "hide" id aj st =
      phSet st r { phGet st r with content := [], display := "none" } := by
  unfold executeCallCore
  rw [gcp_cached id st r hr]
  simp

theorem core_show_eq (action id : String) (aj : Bool) (st : StP1) (r : Nat) (b : String)
    (ha : action = "show" ∨ action = "unhide" ∨ action = "render")
    (hr : lookupA st.placeholders id = some r)
    (hb : lookupA st.hiddenBlocks id = some b) (hne : b ≠ "") :
    executeCallCore action id aj st =
      phSet (renderTinyMarkFragment b aj st).2 r
        { phGet (renderTinyMarkFragment b aj st).2 r with
          content := (renderTinyMarkFragment b aj st).1, display := "" } := by
  unfold executeCallCore
  rw [gcp_cached id st r hr]
  rcases ha with h | h | h <;> subst h <;> simp [hb, hne]

theorem core_show_spec_cached (id : String) (aj : Bool) (st : StP1) (r : Nat) (b : String)
    (hr : lookupA st.placeholders id = some r)
    (hrv : r < st.phs.length)
    (hb : lookupA st.hiddenBlocks id = some b) (hne : b ≠ "")
    (hph : ∀ it ∈ (parseLines b).1, it.selector = "placeholder" → phKeyOf it ≠ id)
    (hregs : ∀ p ∈ (parseLines b).2, p.1 ≠ some id) :
    lookupA (executeCallCore "unhide" id aj st).placeholders id = some r
    ∧ r < (executeCallCore "unhide" id aj st).phs.length
    ∧ lookupA (executeCallCore "unhide" id aj st).hiddenBlocks id = some b
    ∧ (phGet (executeCallCore "unhide" id aj st) r).display = ""
    ∧ (phGet (executeCallCore "unhide" id aj st) r).content.length
        = renderLen (parseLines b).1 := by
  rw [core_show_eq "unhide" id aj st r b (Or.inr (Or.inl rfl)) hr hb hne]
  have hrv2 : r < (renderTinyMarkFragment b aj st).2.phs.length := by
    rw [rf_phs, List.length_append]
    omega
  refine ⟨?_, ?_, ?_, ?_, ?_⟩
  · rw [phSet_placeholders, rf_ph_lookup b aj st id hph]
    exact hr
  · rw [phSet_phs_length]
    exact hrv2
  · rw [phSet_hiddenBlocks, rf_hiddenBlocks, applyRegs_lookup_ne _ _ _ hregs]
    exact hb
  · rw [phGet_phSet_self _ _ _ hrv2]
  · rw [phGet_phSet_self _ _ _ hrv2]
    rw [rf_trees, treesOfPure_length]

theorem core_show_spec (action id : String) (aj : Bool) (st : StP1) (b : String)
    (ha : action = "show" ∨ action = "unhide" ∨ action = "render")
    (hbound : PhWF st ∨ ∃ r, lookupA st.placeholders id = some r ∧ r < st.phs.length)
    (hb : lookupA st.hiddenBlocks id = some b) (hne : b ≠ "")
    (hph : ∀ it ∈ (parseLines b).1, it.selector = "placeholder" → phKeyOf it ≠ id)
    (hregs : ∀ p ∈ (parseLines b).2, p.1 ≠ some id) :
    ∃ r,
      lookupA (executeCallCore action id aj st).placeholders id = some r
      ∧ r < (executeCallCore action id aj st).phs.length
      ∧ lookupA (executeCallCore action id aj st).hiddenBlocks id = some b
      ∧ (phGet (executeCallCore action id aj st) r).display = ""
      ∧ (phGet (executeCallCore action id aj st) r).content.length
          = renderLen (parseLines b).1 := by
  obtain ⟨hself, ghb, -, -, -⟩ := gcp_basic id st
  have hbnd := gcp_bound id st hbound
  have hb2 : lookupA (getOrCreatePlaceholder id st).2.hiddenBlocks id = some b := by
    rw [ghb]; exact hb
  have hcore : executeCallCore action id aj st
      = executeCallCore "unhide" id aj (getOrCreatePlaceholder id st).2 := by
    conv_lhs => unfold executeCallCore
    rw [core_show_eq "unhide" id aj _ (getOrCreatePlaceholder id st).1 b
      (Or.inr (Or.inl rfl)) hself hb2 hne]
    rcases ha with h | h | h <;> subst h <;> simp [hb2, hne]
  rw [hcore]
  exact ⟨(getOrCreatePlaceholder id st).1,
    core_show_spec_cached id aj _ _ b hself hbnd hb2 hne hph hregs⟩

end P1
namespace P1

/-- The two-toggles-cancel law for the part_001 engine, for a registered
non-empty body that does not redeclare a hide block or placeholder for the
same id, starting from any state whose placeholder registry is well formed. -/
theorem toggle_law (st : StP1) (id b : String)
    (hwf : PhWF st)
    (hb : lookupA st.hiddenBlocks id = some b)
    (hne : b ≠ "")
    (hregs : ∀ p ∈ (parseLines b).2, p.1 ≠ some id)
    (hph : ∀ it ∈ (parseLines b).1, it.selector = "placeholder" → phKeyOf it ≠ id) :
    shown (clientToggle id (clientToggle id (executeCallAction "show" id false st))) id
      = shown (executeCallAction "show" id false st) id := by
  have hshow : executeCallAction "show" id false st = executeCallCore "show" id false st :=
    ca_dispatch _ _ _ _ (by decide)
  rw [hshow]
  obtain ⟨r, h1, h2, h3, h4, h5⟩ :=
    core_show_spec "show" id false st b (Or.inl rfl) (Or.inl hwf) hb hne hph hregs
  set S1 := executeCallCore "show" id false st with hS1
  -- visibility of S1 is decided by whether the body renders any node
  have hshown1 : shown S1 id = !(phGet S1 r).content.isEmpty := by
    rw [shown_some S1 id r h1, h4]
    simp
  by_cases hL : renderLen (parseLines b).1 = 0
  · -- the body renders no nodes: every state in the chain is bound, unhidden, empty
    have hempty : (phGet S1 r).content = [] := List.length_eq_zero.mp (by rw [h5, hL])
    have ht1 : clientToggle id S1 = executeCallCore "unhide" id false S1 := by
      unfold clientToggle
      rw [toggle_eq id false S1 r h1, if_pos]
      simp [hempty]
    obtain ⟨h1', h2', h3', h4', h5'⟩ :=
      core_show_spec_cached id false S1 r b h1 h2 h3 hne hph hregs
    rw [ht1]
    set S2 := executeCallCore "unhide" id false S1 with hS2
    have hempty2 : (phGet S2 r).content = [] := List.length_eq_zero.mp (by rw [h5', hL])
    have ht2 : clientToggle id S2 = executeCallCore "unhide" id false S2 := by
      unfold clientToggle
      rw [toggle_eq id false S2 r h1', if_pos]
      simp [hempty2]
    obtain ⟨h1'', h2'', h3'', h4'', h5''⟩ :=
      core_show_spec_cached id false S2 r b h1' h2' h3' hne hph hregs
    rw [ht2]
    set S3 := executeCallCore "unhide" id false S2 with hS3
    have hempty3 : (phGet S3 r).content = [] := List.length_eq_zero.mp (by rw [h5'', hL])
    rw [shown_some S3 id r h1'', hshown1, h4'', hempty, hempty3]
    decide
  · -- the body renders nodes: show is visible; toggle hides; toggle shows again
    have hnonempty : (phGet S1 r).content ≠ [] := by
      intro hc
      rw [hc] at h5
      exact hL (by simpa using h5.symm)
    have ht1 : clientToggle id S1 = executeCallCore "hide" id false S1 := by
      unfold clientToggle
      rw [toggle_eq id false S1 r h1, if_neg]
      simp [h4, hnonempty]
    rw [ht1, core_hide_eq id false S1 r h1]
    set S2 := phSet S1 r { phGet S1 r with content := [], display := "none" } with hS2
    have h1' : lookupA S2.placeholders id = some r := by
      rw [hS2, phSet_placeholders]; exact h1
    have h2' : r < S2.phs.length := by rw [hS2, phSet_phs_length]; exact h2
    have h3' : lookupA S2.hiddenBlocks id = some b := by
      rw [hS2, phSet_hiddenBlocks]; exact h3
    have hget2 : phGet S2 r = { phGet S1 r with content := [], display := "none" } := by
      rw [hS2, phGet_phSet_self _ _ _ h2]
    have ht2 : clientToggle id S2 = executeCallCore "unhide" id false S2 := by
      unfold clientToggle
      rw [toggle_eq id false S2 r h1', if_pos]
      simp [hget2]
    obtain ⟨h1'', h2'', h3'', h4'', h5''⟩ :=
      core_show_spec_cached id false S2 r b h1' h2' h3' hne hph hregs
    rw [ht2]
    set S3 := executeCallCore "unhide" id false S2 with hS3
    have hnonempty3 : (phGet S3 r).content ≠ [] := by
      intro hc
      rw [hc] at h5''
      exact hL (by simpa using h5''.symm)
    have e1 : (phGet S1 r).content.isEmpty = false := by
      cases hc : (phGet S1 r).content with
      | nil => exact absurd hc hnonempty
      | cons a l => rfl
    have e3 : (phGet S3 r).content.isEmpty = false := by
      cases hc : (phGet S3 r).content with
      | nil => exact absurd hc hnonempty3
      | cons a l => rfl
    rw [shown_some S3 id r h1'', hshown1, h4'', e1, e3]
    decide

end P1
namespace P1

theorem stepIdAttr_tag (item : Item) (e : ElCore) : (stepIdAttr item e).tag = e.tag := by
  unfold stepIdAttr; split <;> rfl

theorem stepText_tag (item : Item) (e : ElCore) : (stepText item e).tag = e.tag := by
  unfold stepText; repeat' split
  all_goals rfl

theorem stepHref_tag (item : Item) (e : ElCore) : (stepHref item e).tag = e.tag := by
  unfold stepHref; repeat' split
  all_goals rfl

theorem stepSrc_tag (item : Item) (e : ElCore) : (stepSrc item e).tag = e.tag := by
  unfold stepSrc; repeat' split
  all_goals rfl

theorem stepPresence_tag (item : Item) (key : String) (e : ElCore) :
    (stepPresence item key e).tag = e.tag := by
  unfold stepPresence; repeat' split
  all_goals rfl

theorem stepClass_tag (item : Item) (e : ElCore) : (stepClass item e).tag = e.tag := by
  unfold stepClass; repeat' split
  all_goals rfl

theorem stepInputExtras_tag (item : Item) (e : ElCore) :
    (stepInputExtras item e).tag = e.tag := by
  unfold stepInputExtras; repeat' split
  all_goals rfl

theorem stepStyles_tag (item : Item) (e : ElCore) : (stepStyles item e).tag = e.tag := rfl

theorem stepFnOnclick_tag (item : Item) (e : ElCore) : (stepFnOnclick item e).tag = e.tag := by
  unfold stepFnOnclick; split <;> rfl

theorem stepFnOnload_tag (item : Item) (e : ElCore) : (stepFnOnload item e).tag = e.tag := by
  unfold stepFnOnload; split <;> rfl

theorem stepOnclickJs_tag (item : Item) (aj : Bool) (e : ElCore) :
    (stepOnclickJs item aj e).1.tag = e.tag := by
  unfold stepOnclickJs; repeat' split
  all_goals rfl

theorem stepBookkeeping_tag (item : Item) (e : ElCore) :
    (stepBookkeeping item e).tag = e.tag := rfl

theorem buildElData_tag (item : Item) (aj : Bool) :
    (buildElData item aj).1.tag = (lookupA SELECTORS item.selector).getD "div" := by
  show (stepBookkeeping item (stepOnclickJs item aj _).1).tag = _
  rw [stepBookkeeping_tag, stepOnclickJs_tag, stepFnOnload_tag, stepFnOnclick_tag,
    stepStyles_tag, stepInputExtras_tag, stepClass_tag, stepPresence_tag, stepPresence_tag,
    stepPresence_tag, stepSrc_tag, stepHref_tag, stepText_tag, stepIdAttr_tag]
  rfl

theorem stepIdAttr_textC (item : Item) (e : ElCore) : (stepIdAttr item e).textC = e.textC := by
  unfold stepIdAttr; split <;> rfl

theorem stepHref_textC (item : Item) (e : ElCore) : (stepHref item e).textC = e.textC := by
  unfold stepHref; repeat' split
  all_goals rfl

theorem stepSrc_textC (item : Item) (e : ElCore) : (stepSrc item e).textC = e.textC := by
  unfold stepSrc; repeat' split
  all_goals rfl

theorem stepPresence_textC (item : Item) (key : String) (e : ElCore) :
    (stepPresence item key e).textC = e.textC := by
  unfold stepPresence; repeat' split
  all_goals rfl

theorem stepClass_textC (item : Item) (e : ElCore) : (stepClass item e).textC = e.textC := by
  unfold stepClass; repeat' split
  all_goals rfl

theorem stepInputExtras_textC (item : Item) (e : ElCore) :
    (stepInputExtras item e).textC = e.textC := by
  unfold stepInputExtras; repeat' split
  all_goals rfl

theorem stepStyles_textC (item : Item) (e : ElCore) : (stepStyles item e).textC = e.textC := rfl

theorem stepFnOnclick_textC (item : Item) (e : ElCore) :
    (stepFnOnclick item e).textC = e.textC := by
  unfold stepFnOnclick; split <;> rfl

theorem stepFnOnload_textC (item : Item) (e : ElCore) :
    (stepFnOnload item e).textC = e.textC := by
  unfold stepFnOnload; split <;> rfl

theorem stepOnclickJs_textC (item : Item) (aj : Bool) (e : ElCore) :
    (stepOnclickJs item aj e).1.textC = e.textC := by
  unfold stepOnclickJs; repeat' split
  all_goals rfl

theorem stepBookkeeping_textC (item : Item) (e : ElCore) :
    (stepBookkeeping item e).textC = e.textC := rfl

theorem stepText_textC (item : Item) (e : ElCore) :
    (stepText item e).textC =
      match item.text with
      | some t => if t ≠ "" ∧ ¬ mediaTag e.tag then t else e.textC
      | none => e.textC := by
  unfold stepText
  cases item.text with
  | none => rfl
  | some t =>
    repeat' split
    all_goals rfl

theorem buildElData_textC (item : Item) (aj : Bool) :
    (buildElData item aj).1.textC = textContentOf item := by
  show (stepBookkeeping item (stepOnclickJs item aj _).1).textC = _
  rw [stepBookkeeping_textC, stepOnclickJs_textC, stepFnOnload_textC, stepFnOnclick_textC,
    stepStyles_textC, stepInputExtras_textC, stepClass_textC, stepPresence_textC,
    stepPresence_textC, stepPresence_textC, stepSrc_textC, stepHref_textC, stepText_textC]
  have htag : (stepIdAttr item (elInit item)).tag
      = (lookupA SELECTORS item.selector).getD "div" := by
    rw [stepIdAttr_tag]; rfl
  have htxt : (stepIdAttr item (elInit item)).textC = "" := by
    rw [stepIdAttr_textC]; rfl
  rw [htag, htxt]
  unfold textContentOf
  rfl

theorem buildElData_children (item : Item) (aj : Bool) :
    (buildElData item aj).1.children = kidsOf item := rfl

end P1
namespace TJ

theorem escC_mem (c c' : Char) (h : c' ∈ escC c) :
    c' ≠ '<' ∧ c' ≠ '>' ∧ c' ≠ '"' ∧ c' ≠ '\'' := by
  unfold escC at h
  by_cases h1 : c = '&'
  · rw [if_pos h1] at h
    fin_cases h <;> decide
  · rw [if_neg h1] at h
    by_cases h2 : c = '<'
    · rw [if_pos h2] at h
      fin_cases h <;> decide
    · rw [if_neg h2] at h
      by_cases h3 : c = '>'
      · rw [if_pos h3] at h
        fin_cases h <;> decide
      · rw [if_neg h3] at h
        by_cases h4 : c = '"'
        · rw [if_pos h4] at h
          fin_cases h <;> decide
        · rw [if_neg h4] at h
          by_cases h5 : c = '\''
          · rw [if_pos h5] at h
            fin_cases h <;> decide
          · rw [if_neg h5] at h
            fin_cases h
            exact ⟨h2, h3, h4, h5⟩

theorem escFold_mem (l : List Char) (c : Char)
    (h : c ∈ l.foldr (fun d acc => escC d ++ acc) []) :
    c ≠ '<' ∧ c ≠ '>' ∧ c ≠ '"' ∧ c ≠ '\'' := by
  induction l with
  | nil => simp at h
  | cons d l ih =>
    rw [List.foldr_cons] at h
    rcases List.mem_append.mp h with h' | h'
    · exact escC_mem d c h'
    · exact ih h'

theorem escapeHTML_mem (s : String) (c : Char) (h : c ∈ (escapeHTML s).data) :
    c ≠ '<' ∧ c ≠ '>' ∧ c ≠ '"' ∧ c ≠ '\'' :=
  escFold_mem s.data c h

theorem specialStep_innerHTML (sel tag : String) (ctx : Bool) (e : TJElem)
    (kv : String × String) : (specialStep sel tag ctx e kv).1.innerHTML = e.innerHTML := by
  obtain ⟨k, v⟩ := kv
  unfold specialStep
  dsimp only
  by_cases h1 : k = "href"
  · rw [if_pos h1]
  · rw [if_neg h1]
    by_cases h2 : k = "src"
    · rw [if_pos h2]
    · rw [if_neg h2]
      by_cases h3 : k = "controls"
      · rw [if_pos h3]
        split <;> rfl
      · rw [if_neg h3]
        by_cases h4 : k = "autoplay"
        · rw [if_pos h4]
          split <;> rfl
        · rw [if_neg h4]
          by_cases h5 : k = "loop"
          · rw [if_pos h5]
            split <;> rfl
          · rw [if_neg h5]
            by_cases h6 : k = "options"
            · rw [if_pos h6]
              split <;> rfl
            · rw [if_neg h6]
              by_cases h7 : k = "class"
              · rw [if_pos h7]
              · rw [if_neg h7]
                by_cases h8 : k = "id"
                · rw [if_pos h8]
                  split <;> rfl
                · rw [if_neg h8]
                  by_cases h9 : k = "onclick" ∨ k = "onload"
                  · rw [if_pos h9]
                    split <;> rfl
                  · rw [if_neg h9]
                    by_cases h10 : k = "animation"
                    · rw [if_pos h10]
                    · rw [if_neg h10]
                      by_cases h11 : k = "style"
                      · rw [if_pos h11]
                      · rw [if_neg h11]
                        by_cases h12 : k = "type"
                        · rw [if_pos h12]
                          repeat' split
                          all_goals rfl
                        · rw [if_neg h12]

theorem specialFold_innerHTML (sel tag : String) (ctx : Bool) :
    ∀ (xs : List (String × String)) (e : TJElem),
      (specialFold sel tag ctx e xs).1.innerHTML = e.innerHTML := by
  intro xs
  induction xs with
  | nil => intro e; rfl
  | cons kv rest ih =>
    intro e
    unfold specialFold
    rcases hs : specialStep sel tag ctx e kv with ⟨e1, w1, thrown⟩
    have hstep := specialStep_innerHTML sel tag ctx e kv
    rw [hs] at hstep
    cases thrown with
    | true => exact hstep
    | false =>
      rcases hr : specialFold sel tag ctx e1 rest with ⟨e2, w2, th2⟩
      have h2 := ih e1
      rw [hr] at h2
      show (match specialFold sel tag ctx e1 rest with
        | (e2, w2, thrown) => (e2, w1 + w2, thrown)).1.innerHTML = e.innerHTML
      rw [hr]
      exact Eq.trans h2 hstep

theorem layoutClasses_innerHTML (sel : String) (e : TJElem) :
    (layoutClasses sel e).innerHTML = e.innerHTML := by
  unfold layoutClasses
  dsimp only
  repeat' split
  all_goals rfl

theorem contentFor_innerHTML (tagName text : String) (e : TJElem) :
    (contentFor tagName text e).innerHTML = e.innerHTML
    ∨ (contentFor tagName text e).innerHTML = escapeHTML text := by
  unfold contentFor
  repeat' split
  all_goals simp

theorem renderNode_elem_innerHTML (sel text : String) (attrs : List (String × String))
    (ctx : Bool) (e : TJElem) (w : Nat)
    (h : renderNode sel text attrs ctx = (TJRes.elem e, w)) :
    e.innerHTML = "" ∨ e.innerHTML = escapeHTML text := by
  unfold renderNode at h
  rcases htag : tagFor sel with t | _ | _ | _ <;> rw [htag] at h
  case bodyCase => exact absurd h (by simp)
  case skipCase => exact absurd h (by simp)
  case unknownCase => exact absurd h (by simp)
  case tagOf =>
    dsimp only at h
    rcases hf : specialFold sel t ctx
        (contentFor t text { tag := t, styles := (processAttributes attrs).styles })
        (processAttributes attrs).special with ⟨e2, w2, th2⟩
    rw [hf] at h
    cases th2 with
    | true => exact absurd h (by simp)
    | false =>
      have he2 := TJRes.elem.inj (Prod.mk.inj h).1
      subst he2
      rw [layoutClasses_innerHTML]
      have hfold := specialFold_innerHTML sel t ctx (processAttributes attrs).special
        (contentFor t text { tag := t, styles := (processAttributes attrs).styles })
      rw [hf] at hfold
      dsimp only at hfold
      rw [hfold]
      rcases contentFor_innerHTML t text { tag := t, styles := (processAttributes attrs).styles }
        with hc | hc
      · left; exact hc
      · right; exact hc

end TJ
namespace P1

theorem fbact_runJs_allowJs (body : String) (aj : Bool) (c : String)
    (h : parseFunctionBodyAct body aj = FBAct.runJs c) : aj = true := by
  cases aj with
  | true => rfl
  | false =>
    exfalso
    unfold parseFunctionBodyAct at h
    dsimp only at h
    cases h1 : findCallMatch body.data with
    | some vt => rw [h1] at h; simp at h
    | none =>
      rw [h1] at h
      cases h2 : findSimpleCall body.data with
      | some vt => rw [h2] at h; simp at h
      | none =>
        rw [h2] at h
        cases h3 : findTmk "nav".data body.data with
        | some u => rw [h3] at h; simp at h
        | none =>
          rw [h3] at h
          cases h4 : findTmk "copy".data body.data with
          | some s => rw [h4] at h; simp at h
          | none =>
            rw [h4] at h
            cases h5 : findTmk "modal".data body.data with
            | some s => rw [h5] at h; simp at h
            | none =>
              rw [h5] at h
              repeat' split at h
              all_goals simp_all

theorem phsDelta_fresh (its : List Item) : (phsDelta its).all phFresh = true := by
  induction its with
  | nil => rfl
  | cons it its ih =>
    unfold phsDelta
    rw [List.all_append, ih]
    split
    · simp [mkPhNodeOf, phFresh]
    · simp

theorem gcp_fresh (id : String) (st : StP1)
    (h1 : lookupA st.placeholders id = none)
    (h2 : st.bodyPhs.find? (fun r => ((st.phs[r]?).map PhNode.tmkId) = some id) = none) :
    getOrCreatePlaceholder id st =
      (st.phs.length,
       { st with phs := st.phs ++ [{ tmkId := id, display := "none", content := [] }],
                 bodyPhs := st.bodyPhs ++ [st.phs.length],
                 placeholders := setA st.placeholders id st.phs.length }) := by
  unfold getOrCreatePlaceholder
  rw [h1, h2]

theorem core_ph_isSome (action id : String) (aj : Bool) (st : StP1) :
    (lookupA (executeCallCore action id aj st).placeholders id).isSome := by
  unfold executeCallCore
  dsimp only
  obtain ⟨hself, -, -, -, -⟩ := gcp_basic id st
  have hsome : (lookupA (getOrCreatePlaceholder id st).2.placeholders id).isSome := by
    rw [hself]; rfl
  split
  · split
    · exact hsome
    · split
      · exact hsome
      · rw [phSet_placeholders]
        exact rf_ph_isSome _ _ _ _ hsome
  · split
    · rw [phSet_placeholders]
      exact hsome
    · exact hsome

theorem ca_ph_isSome (action id : String) (aj : Bool) (st : StP1) :
    (lookupA (executeCallAction action id aj st).placeholders id).isSome := by
  unfold executeCallAction
  split
  · show (lookupA
        (if ((phGet (getOrCreatePlaceholder id st).2 (getOrCreatePlaceholder id st).1).display = "none"
              || (phGet (getOrCreatePlaceholder id st).2 (getOrCreatePlaceholder id st).1).content = [])
         then executeCallCore "unhide" id aj (getOrCreatePlaceholder id st).2
         else executeCallCore "hide" id aj (getOrCreatePlaceholder id st).2).placeholders id).isSome
    split
    · exact core_ph_isSome _ _ _ _
    · exact core_ph_isSome _ _ _ _
  · exact core_ph_isSome _ _ _ _

end P1

namespace TJ

theorem executeAction_js (code : String) (aj : Bool) :
    executeAction ("js:" ++ code) aj =
      if aj then TJAct.runJs (trimS code) else TJAct.warnJsBlocked := by
  have hd : ("js:" ++ code).data = 'j' :: 's' :: ':' :: code.data := by
    rw [String.data_append]; rfl
  have ht : ('j' :: 's' :: ':' :: code.data).takeWhile isAlphaC = ['j', 's'] := rfl
  have hdrop : ('j' :: 's' :: ':' :: code.data).drop (['j', 's'] : List Char).length
      = ':' :: code.data := rfl
  have hm : ({ data := List.map Char.toLower ['j', 's'] } : String) = "js" := rfl
  cases aj <;> simp [executeAction, hd, ht, hdrop, hm, trimS]

end TJ
namespace P1

/-- `executeCallCore` on a show-family action for an unregistered (or
empty-bodied) id: only the placeholder fetch and one warning happen. -/
theorem core_show_unreg (id : String) (aj : Bool) (st : StP1)
    (h : lookupA st.hiddenBlocks id = none) :
    executeCallCore "show" id aj st =
      { (getOrCreatePlaceholder id st).2 with
        warnings := (getOrCreatePlaceholder id st).2.warnings + 1 } := by
  unfold executeCallCore
  dsimp only
  have hb : lookupA (getOrCreatePlaceholder id st).2.hiddenBlocks id = none := by
    rw [(gcp_basic id st).2.1]; exact h
  rw [hb]
  rfl

end P1

/-! ## Claims -/

/-- C1: for the source `.hide id:p1` / `.t "secret"` / `.endhide` /
`.placeholder id:p1`, the first render of the part_001 engine produces
exactly one node — the placeholder section, hidden and empty — and no node
containing "secret"; the hide-region body is captured verbatim in the
hidden-block registry under `p1`; and a subsequent `show("p1")` renders
exactly one visible paragraph with text "secret" into the placeholder bound
to `p1`. -/
theorem c1_hide_region_scenario :
    (P1.renderTinyMarkFragment ".hide id:p1\n.t \"secret\"\n.endhide\n.placeholder id:p1"
        false {}).1 = [P1.Tree.ph 0]
    ∧ (P1.renderTinyMarkFragment ".hide id:p1\n.t \"secret\"\n.endhide\n.placeholder id:p1"
        false {}).2.phs = [{ tmkId := "p1", display := "none", content := [] }]
    ∧ (P1.renderTinyMarkFragment ".hide id:p1\n.t \"secret\"\n.endhide\n.placeholder id:p1"
        false {}).2.hiddenBlocks = [("p1", ".t \"secret\"")]
    ∧ (P1.executeCallAction "show" "p1" false
        (P1.renderTinyMarkFragment ".hide id:p1\n.t \"secret\"\n.endhide\n.placeholder id:p1"
          false {}).2).phs
      = [{ tmkId := "p1", display := "",
           content := [P1.Tree.el
             { toElCore :=
                 { tag := "p", textC := "secret", valueP := "",
                   attrsOut := [("data-tmk-selector", "t"), ("data-tmk-raw", ".t \"secret\"")],
                   styles := [], classes := [],
                   listeners := ["shift-click:inspector"] },
               children := [] }] }] :=
  ⟨rfl, rfl, rfl, rfl⟩

/-- C2, counterexample: in the reachable state `c2State` the id `x` has a
registered hidden-block body (the empty string, after a re-declaration with
an empty `.hide` region), yet `show; toggle; toggle` ends hidden while
`show` alone ends visible — the claim as stated fails for ids whose
registered body is empty. -/
theorem c2_toggle_claim_counterexample :
    lookupA P1.c2State.hiddenBlocks "x" = some ""
    ∧ P1.shown (P1.executeCallAction "show" "x" false P1.c2State) "x" = true
    ∧ P1.shown (P1.clientToggle "x" (P1.clientToggle "x"
        (P1.executeCallAction "show" "x" false P1.c2State))) "x" = false :=
  ⟨rfl, rfl, rfl⟩

/-- C2, amended: for every id whose registered body is non-empty and does
not itself redeclare a `.hide` region or a `.placeholder` for the same id,
two toggles after a show cancel (starting from any state whose placeholder
registry references live nodes); and `toggle` dispatches to show or hide
purely from the bound placeholder's current `style.display` and content
emptiness — no separately tracked flag. -/
theorem c2_toggle_amended :
    (∀ (st : P1.StP1) (id b : String),
        P1.PhWF st →
        lookupA st.hiddenBlocks id = some b →
        b ≠ "" →
        (∀ p ∈ (P1.parseLines b).2, p.1 ≠ some id) →
        (∀ it ∈ (P1.parseLines b).1, it.selector = "placeholder" → P1.phKeyOf it ≠ id) →
        P1.shown (P1.clientToggle id (P1.clientToggle id
            (P1.executeCallAction "show" id false st))) id
          = P1.shown (P1.executeCallAction "show" id false st) id)
    ∧ (∀ (id : String) (aj : Bool) (st : P1.StP1) (r : Nat),
        lookupA st.placeholders id = some r →
        P1.executeCallAction "toggle" id aj st =
          if (P1.phGet st r).display = "none" || (P1.phGet st r).content = []
          then P1.executeCallCore "unhide" id aj st
          else P1.executeCallCore "hide" id aj st) :=
  ⟨P1.toggle_law, fun id aj st r h => P1.toggle_eq id aj st r h⟩

/-- C2, witness: the amended law applied to a freshly rendered document with
hidden block `w` (body `.t "hello"`) and its placeholder. -/
theorem c2_toggle_amended_witness :
    P1.shown (P1.clientToggle "w" (P1.clientToggle "w"
        (P1.executeCallAction "show" "w" false
          (P1.renderTinyMarkFragment ".hide id:w\n.t \"hello\"\n.endhide\n.placeholder id:w"
            false {}).2))) "w"
      = P1.shown (P1.executeCallAction "show" "w" false
          (P1.renderTinyMarkFragment ".hide id:w\n.t \"hello\"\n.endhide\n.placeholder id:w"
            false {}).2) "w" :=
  c2_toggle_amended.1
    (P1.renderTinyMarkFragment ".hide id:w\n.t \"hello\"\n.endhide\n.placeholder id:w" false {}).2
    "w" ".t \"hello\"" (by unfold P1.PhWF; decide) rfl (by decide) (by decide) (by decide)

/-- C3, counterexample: the body `js:a();b()` is a `js:` action, yet the
part_001 interpreter routes it to the semicolon-markup branch regardless of
the capability flag — with `allow-js` set the raw code is not executed, and
with it unset no warning is emitted (the claimed "if and only if" and the
guaranteed warning both fail). -/
theorem c3_js_gate_counterexample :
    P1.parseFunctionBodyAct "js:a();b()" true = P1.FBAct.renderSemis "js:a();b()"
    ∧ P1.parseFunctionBodyAct "js:a();b()" false = P1.FBAct.renderSemis "js:a();b()" :=
  ⟨rfl, rfl⟩

/-- C3, amended: raw code never runs without the capability flag (in both
engines); for bodies that reach the `js:` branch of part_001 (such as the
spec's `js:doSomething()`) execution happens exactly when the flag is set,
with a warning otherwise; and in the tinymark.js variant every `js:` action
is executed iff `allow-js`, with the blocked-handler warning otherwise. -/
theorem c3_js_gate_amended :
    (∀ (body : String) (aj : Bool) (c : String),
        P1.parseFunctionBodyAct body aj = P1.FBAct.runJs c → aj = true)
    ∧ P1.parseFunctionBodyAct "js:doSomething()" true = P1.FBAct.runJs "doSomething()"
    ∧ P1.parseFunctionBodyAct "js:doSomething()" false = P1.FBAct.warnUnparsed
    ∧ (∀ (code : String) (aj : Bool),
        TJ.executeAction ("js:" ++ code) aj =
          if aj then TJ.TJAct.runJs (trimS code) else TJ.TJAct.warnJsBlocked) :=
  ⟨P1.fbact_runJs_allowJs, rfl, rfl, TJ.executeAction_js⟩

/-- C3, witness: the no-execution-without-flag part applied at `js:x`. -/
theorem c3_js_gate_amended_witness :
    P1.parseFunctionBodyAct "js:x" true = P1.FBAct.runJs "x" ∧ true = true :=
  ⟨rfl, c3_js_gate_amended.1 "js:x" true "x" rfl⟩

/-- C4, amended: the scenario `.id "x" function:oncall(` / `call:show:a` /
`call:hide:b` / `)` parses to a single item whose function body joins both
inner lines, rendering registers exactly one `idFunctions` entry for `x`
with that body, and the inner lines leak no parse nodes; but the cross-line
collector stops at the **first** `)` character of a continuation line (see
the counterexample) rather than tracking parenthesis depth across lines. -/
theorem c4_function_body_amended :
    (P1.parseLines ".id \"x\" function:oncall(\ncall:show:a\ncall:hide:b\n)").1
      = [{ selector := "id", text := some "x", attrs := [("function", "oncall")],
           functionType := some "oncall",
           functionBody := some "\ncall:show:a\ncall:hide:b\n",
           rawLine := ".id \"x\" function:oncall(" }]
    ∧ (P1.renderItems
        (P1.parseLines ".id \"x\" function:oncall(\ncall:show:a\ncall:hide:b\n)").1
        false {}).2.idFunctions = [("x", "\ncall:show:a\ncall:hide:b\n")]
    ∧ (P1.renderItems
        (P1.parseLines ".id \"x\" function:oncall(\ncall:show:a\ncall:hide:b\n)").1
        false {}).1.length = 1 :=
  ⟨rfl, rfl, rfl⟩

/-- C4, counterexample: for `.id "x" function:oncall(` / `js:f(1)` / `)`,
depth tracking would collect the body `js:f(1)` up to the balanced final
`)`; the parser instead cuts the continuation line at its first `)`,
yielding the truncated body `\njs:f(1`. -/
theorem c4_function_body_counterexample :
    (P1.parseLines ".id \"x\" function:oncall(\njs:f(1)\n)").1.map P1.Item.functionBody
      = [some "\njs:f(1"] :=
  rfl

/-- C5, counterexample: `toHTML` is not side-effect-free — rendering a
source with a `.hide` region writes the hidden-block registry. -/
theorem c5_tohtml_counterexample :
    ({} : P1.StP1).hiddenBlocks = []
    ∧ (P1.toHTML ".hide id:z\n.t \"w\"\n.endhide" ({} : P1.StP1)).2.hiddenBlocks
        = [("z", ".t \"w\"")]
    ∧ (P1.toHTML ".hide id:z\n.t \"w\"\n.endhide" ({} : P1.StP1)).1 = [] :=
  ⟨rfl, rfl, rfl⟩

/-- C5, amended: the output of `toHTML` is a pure function of the source
text alone — the produced trees are `treesOfPure` of the parse at the
current heap offset, and the placeholder sections they reference are the
freshly appended `phsDelta` nodes, all hidden and empty, so the serialized
markup is byte-identical across calls and across registry states; but
`toHTML` is not side-effect-free: it registers `.hide` bodies (and `oncall`
functions and placeholders) as it goes. -/
theorem c5_tohtml_amended :
    ∀ (s : String) (st : P1.StP1),
      (P1.toHTML s st).1 = P1.treesOfPure (P1.parseLines s).1 false st.phs.length
      ∧ (P1.toHTML s st).2.phs = st.phs ++ P1.phsDelta (P1.parseLines s).1
      ∧ (P1.phsDelta (P1.parseLines s).1).all P1.phFresh = true :=
  fun s st => ⟨P1.rf_trees s false st, P1.rf_phs s false st, P1.phsDelta_fresh _⟩

/-- C6: `show` on an id with no registered hidden-block body is a no-op that
emits exactly one warning: the warning counter rises by one, the registries
are untouched, and the only possible heap change is the creation of the
(hidden, empty) placeholder itself — no visible content appears. -/
theorem c6_show_unregistered :
    ∀ (st : P1.StP1) (id : String) (aj : Bool),
      lookupA st.hiddenBlocks id = none →
      (P1.executeCallAction "show" id aj st).warnings = st.warnings + 1
      ∧ (P1.executeCallAction "show" id aj st).hiddenBlocks = st.hiddenBlocks
      ∧ (P1.executeCallAction "show" id aj st).idFunctions = st.idFunctions
      ∧ ∃ Δ, (P1.executeCallAction "show" id aj st).phs = st.phs ++ Δ
          ∧ ∀ n ∈ Δ, n.display = "none" ∧ n.content = [] := by
  intro st id aj h
  have hd : P1.executeCallAction "show" id aj st = P1.executeCallCore "show" id aj st :=
    P1.ca_dispatch _ _ _ _ (by decide)
  rw [hd, P1.core_show_unreg id aj st h]
  obtain ⟨-, ghb, gwarn, gidf, Δ, hphs, hΔ⟩ := P1.gcp_basic id st
  exact ⟨by rw [gwarn], by rw [ghb], by rw [gidf], Δ, hphs, hΔ⟩

/-- C6, witness: showing the unregistered id `q` from the empty state. -/
theorem c6_show_unregistered_witness :
    lookupA (({} : P1.StP1)).hiddenBlocks "q" = none
    ∧ ((P1.executeCallAction "show" "q" false {}).warnings = ({} : P1.StP1).warnings + 1
       ∧ (P1.executeCallAction "show" "q" false {}).hiddenBlocks = ({} : P1.StP1).hiddenBlocks
       ∧ (P1.executeCallAction "show" "q" false {}).idFunctions = ({} : P1.StP1).idFunctions
       ∧ ∃ Δ, (P1.executeCallAction "show" "q" false {}).phs = ({} : P1.StP1).phs ++ Δ
           ∧ ∀ n ∈ Δ, n.display = "none" ∧ n.content = []) :=
  ⟨rfl, c6_show_unregistered {} "q" false rfl⟩

/-- C7, counterexample: in the tinymark.js variant an element line with the
unknown selector `.foo` is **dropped** — `renderNode` logs a warning and
returns no node instead of producing a generic container. -/
theorem c7_unknown_selector_counterexample :
    TJ.renderNode "foo" "" [] true = (TJ.TJRes.skipped, 1) :=
  rfl

/-- C7, amended: the part_001 renderer maps every selector outside the fixed
table to a generic `<div>` container and never drops the element; the
tinymark.js variant instead warns and returns `null` for unknown selectors
(the node is dropped there). -/
theorem c7_unknown_selector_amended :
    (∀ (it : P1.Item) (aj : Bool) (st : P1.StP1),
        lookupA P1.SELECTORS it.selector = none →
        (P1.createElementFromParsed it aj st).1 = some (P1.Tree.el (P1.buildElData it aj).1)
        ∧ (P1.buildElData it aj).1.tag = "div")
    ∧ (∀ (sel text : String) (attrs : List (String × String)) (ctx : Bool),
        TJ.tagFor sel = TJ.TJTagR.unknownCase →
        TJ.renderNode sel text attrs ctx = (TJ.TJRes.skipped, 1)) := by
  constructor
  · intro it aj st h
    have hb : it.selector ≠ "body" := by
      intro hc
      rw [hc] at h
      exact absurd h (by decide)
    have hp : it.selector ≠ "placeholder" := by
      intro hc
      rw [hc] at h
      exact absurd h (by decide)
    constructor
    · rw [P1.createEl_fst]
      unfold P1.treeOfPure
      rw [if_neg hb, if_neg hp]
    · rw [P1.buildElData_tag, h]
      rfl
  · intro sel text attrs ctx h
    unfold TJ.renderNode
    rw [h]

/-- C7, witness: both halves applied — the unknown selector `zzz` in
part_001 yields a `div`, and the unknown selector `foo` in tinymark.js is
dropped with one warning. -/
theorem c7_unknown_selector_witness :
    (P1.buildElData
        { selector := "zzz", text := none, attrs := [], rawLine := ".zzz" }
        false).1.tag = "div"
    ∧ TJ.renderNode "foo" "x" [] true = (TJ.TJRes.skipped, 1) :=
  ⟨(c7_unknown_selector_amended.1
      { selector := "zzz", text := none, attrs := [], rawLine := ".zzz" } false {} rfl).2,
   c7_unknown_selector_amended.2 "foo" "x" [] true rfl⟩

/-- C8, counterexample: rendering `.row` / `.t "a"` / `.col` / `.t "b"` /
`.t "c"` produces five sibling nodes; the row `<div>` has **no** children,
and "a" is a separate top-level paragraph — it is never placed inside the
row, contradicting the claimed auto-wrap grouping. -/
theorem c8_row_grouping_counterexample :
    (P1.renderTinyMarkFragment ".row\n.t \"a\"\n.col\n.t \"b\"\n.t \"c\"" false {}).1.map
        P1.treeKids = [[], [], [], [], []]
    ∧ (P1.renderTinyMarkFragment ".row\n.t \"a\"\n.col\n.t \"b\"\n.t \"c\"" false {}).1.map
        P1.treeText = ["", "a", "", "b", "c"] :=
  ⟨rfl, rfl⟩

/-- C8, amended: the part_001 renderer keeps no open-row cursor at all —
the five lines render as five childless siblings in source order (`div`
with flex-row styling, `p "a"`, `div` with flex-column styling, `p "b"`,
`p "c"`); row and column selectors only receive flex styles, and no element
is ever auto-wrapped into a preceding row. -/
theorem c8_row_grouping_amended :
    (P1.renderTinyMarkFragment ".row\n.t \"a\"\n.col\n.t \"b\"\n.t \"c\"" false {}).1.map
        P1.treeTag = ["div", "p", "div", "p", "p"]
    ∧ (P1.renderTinyMarkFragment ".row\n.t \"a\"\n.col\n.t \"b\"\n.t \"c\"" false {}).1.map
        P1.treeText = ["", "a", "", "b", "c"]
    ∧ (P1.renderTinyMarkFragment ".row\n.t \"a\"\n.col\n.t \"b\"\n.t \"c\"" false {}).1.map
        P1.treeKids = [[], [], [], [], []]
    ∧ (P1.renderTinyMarkFragment ".row\n.t \"a\"\n.col\n.t \"b\"\n.t \"c\"" false {}).1.map
        P1.treeDisplay = [some "flex", none, some "flex", none, none]
    ∧ (P1.renderTinyMarkFragment ".row\n.t \"a\"\n.col\n.t \"b\"\n.t \"c\"" false {}).1.map
        P1.treeFlexDir = [some "row", none, some "column", none, none] :=
  ⟨rfl, rfl, rfl, rfl, rfl⟩

/-- C9, counterexample: in the reachable state `c9State` (hidden block `x`
whose body declares `.placeholder id:x`), the first call-action invocation
for `x` creates and uses node 0, but rendering the body re-binds the
registry to the freshly created node 1 — the next invocation fetches a
**different** node, refuting "every later invocation operates on that same
cached node". -/
theorem c9_placeholder_registry_counterexample :
    P1.c9State.hiddenBlocks = [("x", ".placeholder id:x")]
    ∧ (P1.getOrCreatePlaceholder "x" P1.c9State).1 = 0
    ∧ (P1.getOrCreatePlaceholder "x" (P1.clientUnhide "x" P1.c9State)).1 = 1
    ∧ ((P1.clientUnhide "x" P1.c9State).phs.map P1.PhNode.display) = ["", "none"] :=
  ⟨rfl, rfl, rfl, rfl⟩

/-- C9, amended: every call-action invocation leaves a placeholder registry
entry for the id; when no entry and no matching document node exist, a new
hidden empty `<section data-tmk-id>` is created, appended to
`document.body` and cached; and while a registry entry exists, fetching the
placeholder returns that same cached node unchanged — the binding moves
only when a later render declares a `.placeholder` for the same id (see the
counterexample). -/
theorem c9_placeholder_registry_amended :
    (∀ (action id : String) (aj : Bool) (st : P1.StP1),
        (lookupA (P1.executeCallAction action id aj st).placeholders id).isSome)
    ∧ (∀ (id : String) (st : P1.StP1),
        lookupA st.placeholders id = none →
        st.bodyPhs.find? (fun r => ((st.phs[r]?).map P1.PhNode.tmkId) = some id) = none →
        P1.getOrCreatePlaceholder id st =
          (st.phs.length,
           { st with phs := st.phs ++ [{ tmkId := id, display := "none", content := [] }],
                     bodyPhs := st.bodyPhs ++ [st.phs.length],
                     placeholders := setA st.placeholders id st.phs.length }))
    ∧ (∀ (id : String) (st : P1.StP1) (r : Nat),
        lookupA st.placeholders id = some r →
        P1.getOrCreatePlaceholder id st = (r, st)) :=
  ⟨P1.ca_ph_isSome, P1.gcp_fresh, P1.gcp_cached⟩

/-- C9, witness: the three parts applied at concrete inputs. -/
theorem c9_placeholder_registry_witness :
    (lookupA (P1.executeCallAction "hide" "q" false {}).placeholders "q").isSome = true
    ∧ P1.getOrCreatePlaceholder "q" ({} : P1.StP1) =
        (0, { phs := [{ tmkId := "q", display := "none", content := [] }],
              bodyPhs := [0], placeholders := [("q", 0)] })
    ∧ P1.getOrCreatePlaceholder "w"
        { phs := [{ tmkId := "w", display := "none", content := [] }],
          placeholders := [("w", 0)] }
        = (0, { phs := [{ tmkId := "w", display := "none", content := [] }],
                placeholders := [("w", 0)] }) := by
  refine ⟨c9_placeholder_registry_amended.1 "hide" "q" false {}, ?_, ?_⟩
  · have h := c9_placeholder_registry_amended.2.1 "q" {} rfl rfl
    simpa using h
  · exact c9_placeholder_registry_amended.2.2 "w" _ 0 rfl

/-- C10: inline quoted text never creates markup — `escapeHTML` output
contains none of `<`, `>`, `"`, `'`; every element the tinymark.js renderer
emits has an `innerHTML` free of `<` (so the text can introduce no elements
or attributes); and in part_001 the text is stored verbatim as
`textContent` while an element's children are built from the `options`
attribute alone, independent of the text. -/
theorem c10_text_safety :
    (∀ (s : String) (c : Char), c ∈ (TJ.escapeHTML s).data →
        c ≠ '<' ∧ c ≠ '>' ∧ c ≠ '"' ∧ c ≠ '\'')
    ∧ (∀ (sel text : String) (attrs : List (String × String)) (ctx : Bool)
          (e : TJ.TJElem) (w : Nat),
        TJ.renderNode sel text attrs ctx = (TJ.TJRes.elem e, w) →
        '<' ∉ e.innerHTML.data)
    ∧ (∀ (it : P1.Item) (aj : Bool),
        (P1.buildElData it aj).1.textC = P1.textContentOf it
        ∧ (P1.buildElData it aj).1.children = P1.kidsOf it) := by
  refine ⟨TJ.escapeHTML_mem, ?_, ?_⟩
  · intro sel text attrs ctx e w h hc
    rcases TJ.renderNode_elem_innerHTML sel text attrs ctx e w h with h0 | h0
    · rw [h0] at hc
      simp at hc
    · rw [h0] at hc
      exact (TJ.escapeHTML_mem text '<' hc).1 rfl
  · intro it aj
    exact ⟨P1.buildElData_textC it aj, P1.buildElData_children it aj⟩

/-- C10, witness: the escape part applied to a character of
`escapeHTML "a<b"`, and the renderer part applied to the rendered `.t`
element for the text `a<b` (whose `innerHTML` is `a&lt;b`). -/
theorem c10_text_safety_witness :
    ('a' ≠ '<' ∧ 'a' ≠ '>' ∧ 'a' ≠ '"' ∧ 'a' ≠ '\'')
    ∧ '<' ∉ ("a&lt;b" : String).data :=
  ⟨c10_text_safety.1 "a<b" 'a' (by decide),
   c10_text_safety.2.1 "t" "a<b" [] true
     { tag := "p", innerHTML := "a&lt;b" } 0 rfl⟩
